import Mathlib

/-!
Verification development for the Sherpa-OS context/prompt core
(`src/utils/context.ts`, `src/utils/prompts.ts`, `src/commands/prompt-optimize.ts`).

Shallow embedding conventions:
* JavaScript strings are Lean `String`; all character-level work is done on
  `String.data : List Char` with executable helper functions, because the
  relevant source operations (`replace`, `includes`, `toLowerCase`, `sort`)
  are character-level.
* JavaScript numbers that carry ratios (`averageRating`, the 0.7 threshold)
  are modelled as `Rat`; counters are `Nat`.
* The file-system stores (`templates/`, `versions/`, `performance.json`,
  `compressed.json`) are modelled as association lists keyed by the file
  name / record key, mirroring `writeJson` / `readJson` / `fileExists`.
* Wall-clock timestamps (`new Date().toISOString()`, `Date.now()`) are passed
  in as an explicit `now : String` argument.
* `String.prototype.replace` with a `g` regex over a literal pattern is
  modelled by `replaceAll`: a single left-to-right scan replacing
  non-overlapping occurrences without rescanning replaced text, with the
  `$`-escape sequences of the replacement string (`$$`, `$&`, the backquote
  and quote forms) expanded at each match by `expandDollar`.
-/

namespace Sherpa

/-- The character `{` (written via its code so that brace characters never
appear literally in this file). -/
def lbrace : Char := Char.ofNat 123

/-- The character `}`. -/
def rbrace : Char := Char.ofNat 125

/-- Sublist (substring) test on character lists: JavaScript
`haystack.includes(needle)`. -/
def hasSub (pat : List Char) : List Char → Bool
  | [] => pat.isEmpty
  | c :: rest => pat.isPrefixOf (c :: rest) || hasSub pat rest

/-- JavaScript `s.includes(sub)`. -/
def strIncludes (s sub : String) : Bool := hasSub sub.data s.data

/-- JavaScript `s.toLowerCase()` (ASCII-accurate). -/
def lowerStr (s : String) : String := String.mk (s.data.map Char.toLower)

/-- The `$` character (special in a JavaScript replacement string). -/
def dollar : Char := Char.ofNat 36

/-- The backquote character (for the JavaScript `$`-backquote escape). -/
def backquote : Char := Char.ofNat 96

/-- The single-quote character (for the JavaScript `$`-quote escape). -/
def squote : Char := Char.ofNat 39

/-- JavaScript `$`-substitution in a string replacement, for a regex with no
capture groups (the source's `new RegExp('...', 'g')` patterns have none):
`$$` emits `$`; `$&` emits the matched text; `$`-backquote emits the part of
the original subject before the match; `$`-quote emits the part after the
match; every other `$`-sequence (including `$1` and `$<`, which name absent
groups) is copied literally. -/
def expandDollar (before matched after : List Char) : List Char → List Char
  | [] => []
  | [c] => [c]
  | c :: d :: rest =>
    if c = dollar then
      if d = dollar then dollar :: expandDollar before matched after rest
      else if d = '&' then matched ++ expandDollar before matched after rest
      else if d = backquote then before ++ expandDollar before matched after rest
      else if d = squote then after ++ expandDollar before matched after rest
      else c :: expandDollar before matched after (d :: rest)
    else c :: expandDollar before matched after (d :: rest)

/-- Fuel-driven worker for `replaceAll`; the fuel always starts at the
length of the subject, so the fuel-exhausted branch is never taken.
`before` accumulates the original subject text already scanned, which the
`$`-backquote escape reinserts. -/
def replaceAllF : Nat → List Char → List Char → List Char → List Char → List Char
  | _, _, _, _, [] => []
  | 0, _, _, _, s => s
  | fuel + 1, pat, repl, before, c :: rest =>
    if pat ≠ [] ∧ pat.isPrefixOf (c :: rest) then
      expandDollar before pat ((c :: rest).drop pat.length) repl
        ++ replaceAllF fuel pat repl (before ++ pat) ((c :: rest).drop pat.length)
    else
      c :: replaceAllF fuel pat repl (before ++ [c]) rest

/-- `replaceAllF` from an arbitrary already-scanned prefix. -/
def replaceAllRest (pat repl before s : List Char) : List Char :=
  replaceAllF s.length pat repl before s

/-- JavaScript `s.replace(new RegExp(pat, 'g'), repl)` for a literal
pattern `pat`: one left-to-right scan, non-overlapping matches, replaced
text is not rescanned, and the replacement string undergoes
`$`-substitution (`expandDollar`) at each match. -/
def replaceAll (pat repl s : List Char) : List Char :=
  replaceAllF s.length pat repl [] s

/-- `replaceAll` lifted to `String`. -/
def strReplaceAll (pat repl s : String) : String :=
  String.mk (replaceAll pat.data repl.data s.data)

/-- Proof device: the same scan specialised to replacement strings without
`$`-escapes, where the inserted text is the replacement itself; `replaceAll`
coincides with it whenever the replacement contains no `$`. -/
def replaceAllNDF : Nat → List Char → List Char → List Char → List Char
  | _, _, _, [] => []
  | 0, _, _, s => s
  | fuel + 1, pat, repl, c :: rest =>
    if pat ≠ [] ∧ pat.isPrefixOf (c :: rest) then
      repl ++ replaceAllNDF fuel pat repl ((c :: rest).drop pat.length)
    else
      c :: replaceAllNDF fuel pat repl rest

/-- Entry point of the `$`-free scan. -/
def replaceAllND (pat repl s : List Char) : List Char :=
  replaceAllNDF s.length pat repl s

/-- JavaScript `Array.prototype.join(sep)`. -/
def joinWith (sep : String) : List String → String
  | [] => ""
  | [x] => x
  | x :: xs => x ++ sep ++ joinWith sep xs

/-- Code-unit comparison of character lists, the order JavaScript
`Array.prototype.sort()` uses on (ASCII) strings. -/
def listLe : List Char → List Char → Bool
  | [], _ => true
  | _ :: _, [] => false
  | a :: as, b :: bs =>
    if a.toNat < b.toNat then true
    else if b.toNat < a.toNat then false
    else listLe as bs

/-- String comparison used by `Array.prototype.sort()` on dependency names. -/
def strLeB (a b : String) : Bool := listLe a.data b.data

/-- JavaScript `array.sort()` on a string array (insertion sort realises the
same sorted result; only the sorted output is observable here). -/
def depSort (l : List String) : List String :=
  List.insertionSort (fun a b => strLeB a b = true) l

/-- Keep-first de-duplication,
JavaScript `arr.filter((x, i) => arr.indexOf(x) === i)`. -/
def uniqAux (seen : List String) : List String → List String
  | [] => []
  | x :: xs => if x ∈ seen then uniqAux seen xs else x :: uniqAux (x :: seen) xs

/-- Association-list lookup: first entry with the given key
(models reading the file / record named `k`). -/
def mapGet (m : List (String × α)) (k : String) : Option α :=
  (m.find? (fun p => p.1 == k)).map (fun p => p.2)

/-- Overwrite every entry holding key `k` (models rewriting an existing
file / record in place). -/
def mapSet (m : List (String × α)) (k : String) (v : α) : List (String × α) :=
  m.map (fun p => if p.1 == k then (k, v) else p)

/-- Append a fresh entry (models creating a new file / record). -/
def mapInsert (m : List (String × α)) (k : String) (v : α) : List (String × α) :=
  m ++ [(k, v)]

/-! ## Data model (`context.ts` interfaces) -/

/-- `CodePattern` (context.ts). -/
structure CodePattern where
  id : String
  name : String
  description : String
  «example» : String
  frequency : Nat
  files : List String
  lastSeen : String
deriving DecidableEq

/-- `ArchitecturalDecision` (context.ts). -/
structure ArchitecturalDecision where
  id : String
  title : String
  decision : String
  rationale : String
  consequences : List String
  date : String
  files : List String
deriving DecidableEq

/-- `CommonPitfall` (context.ts). -/
structure CommonPitfall where
  id : String
  pattern : String
  description : String
  solution : String
  frequency : Nat
  examples : List String
deriving DecidableEq

/-- `CompressedContext` (context.ts). -/
structure CompressedContext where
  patterns : List CodePattern
  decisions : List ArchitecturalDecision
  pitfalls : List CommonPitfall
  summary : String
  lastUpdated : String
  codebaseFingerprint : String
deriving DecidableEq

/-! ## Structural pattern extraction (`ContextManager.extractPatterns`)

Babel parsing itself is an external library; a source file is represented by
the list of declarations Babel's traversal visits in it, restricted — as the
spec's property does — to the successfully parsed files (a file that fails to
parse contributes no declarations and is simply not in the list). -/

/-- One function parameter as seen by `extractFunctionPattern`:
whether it is a plain `Identifier` (and its name), and whether it carries a
type annotation. -/
structure Param where
  isIdent : Bool
  name : String
  hasTypeAnn : Bool
deriving DecidableEq

/-- One class-body member as seen by `extractClassPattern`. -/
structure Member where
  isClassMethod : Bool
  kind : String
deriving DecidableEq

/-- A declaration visited by the Babel traversal: `FunctionDeclaration`
(with optional `id`), `ClassDeclaration` (with optional `id`), or
`ImportDeclaration`. -/
inductive Decl where
  | func (name : Option String) (params : List Param) (isAsync : Bool)
  | cls (name : Option String) (members : List Member)
  | imp (source : String) (specifiers : List String) (hasDefaultImport : Bool)
deriving DecidableEq

/-- A successfully parsed source file: its path and its visited declarations. -/
structure SrcFile where
  file : String
  decls : List Decl
deriving DecidableEq

/-- The `patterns : Map<string, CodePattern>` accumulator. -/
abbrev PatternMap := List (String × CodePattern)

/-- `ContextManager.extractFunctionPattern`. -/
def extractFunctionPattern (now file : String) (name : Option String)
    (params : List Param) (isAsync : Bool) (patterns : PatternMap) : PatternMap :=
  match name with
  | none => patterns
  | some functionName =>
    let nParams := params.length
    let hasTypeAnnotations := params.any (fun p => p.hasTypeAnn)
    let patternId :=
      "function-" ++ toString nParams ++ "-params-" ++ (if isAsync then "async" else "sync")
    match mapGet patterns patternId with
    | some existing =>
      mapSet patterns patternId
        { existing with
          frequency := existing.frequency + 1
          files := existing.files ++ [file]
          lastSeen := now }
    | none =>
      mapInsert patterns patternId
        { id := patternId
          name := (if isAsync then "Async" else "Sync") ++ " function with "
            ++ toString nParams ++ " parameters"
          description := "Functions with " ++ toString nParams ++ " parameters, "
            ++ (if hasTypeAnnotations then "with" else "without") ++ " type annotations"
          «example» := "function " ++ functionName ++ "("
            ++ joinWith ", " (params.map (fun p => if p.isIdent then p.name else "..."))
            ++ ") \x7b ... \x7d"
          frequency := 1
          files := [file]
          lastSeen := now }

/-- `ContextManager.extractClassPattern`. -/
def extractClassPattern (now file : String) (name : Option String)
    (members : List Member) (patterns : PatternMap) : PatternMap :=
  match name with
  | none => patterns
  | some className =>
    let hasConstructor :=
      members.any (fun m => m.isClassMethod && m.kind == "constructor")
    let methodCount :=
      (members.filter (fun m => m.isClassMethod && m.kind == "method")).length
    let patternId := "class-" ++ toString methodCount ++ "-methods"
    match mapGet patterns patternId with
    | some existing =>
      mapSet patterns patternId
        { existing with
          frequency := existing.frequency + 1
          files := existing.files ++ [file]
          lastSeen := now }
    | none =>
      mapInsert patterns patternId
        { id := patternId
          name := "Class with " ++ toString methodCount ++ " methods"
          description := "Classes with " ++ toString methodCount ++ " methods, "
            ++ (if hasConstructor then "with" else "without") ++ " constructor"
          «example» := "class " ++ className ++ " \x7b ... \x7d"
          frequency := 1
          files := [file]
          lastSeen := now }

/-- `ContextManager.extractImportPattern`. -/
def extractImportPattern (now file : String) (source : String)
    (specifiers : List String) (hasDefaultImport : Bool)
    (patterns : PatternMap) : PatternMap :=
  let isRelative := (String.mk (source.data.take 2) == "./")
    || (String.mk (source.data.take 3) == "../")
  let specifierCount := specifiers.length
  let patternId :=
    "import-" ++ (if isRelative then "relative" else "package") ++ "-" ++ toString specifierCount
  match mapGet patterns patternId with
  | some existing =>
    mapSet patterns patternId
      { existing with
        frequency := existing.frequency + 1
        files := existing.files ++ [file]
        lastSeen := now }
  | none =>
    mapInsert patterns patternId
      { id := patternId
        name := (if isRelative then "Relative" else "Package") ++ " import with "
          ++ toString specifierCount ++ " specifiers"
        description := "Import from "
          ++ (if isRelative then "relative path" else "npm package") ++ " with "
          ++ toString specifierCount ++ " specifiers, "
          ++ (if hasDefaultImport then "with" else "without") ++ " default import"
        «example» := "import \x7b ... \x7d from \x27" ++ source ++ "\x27;"
        frequency := 1
        files := [file]
        lastSeen := now }

/-- Dispatch of the three traversal visitors over one declaration. -/
def processDecl (now file : String) (patterns : PatternMap) : Decl → PatternMap
  | .func name params isAsync => extractFunctionPattern now file name params isAsync patterns
  | .cls name members => extractClassPattern now file name members patterns
  | .imp source specifiers hasDefaultImport =>
    extractImportPattern now file source specifiers hasDefaultImport patterns

/-- The `Map` state after `ContextManager.extractPatterns` has walked all
successfully parsed files. -/
def extractPatternsMap (files : List SrcFile) (now : String) : PatternMap :=
  files.foldl (fun m f => f.decls.foldl (fun m d => processDecl now f.file m d) m) []

/-- `ContextManager.extractPatterns`: `Array.from(patterns.values())`. -/
def extractPatterns (files : List SrcFile) (now : String) : List CodePattern :=
  (extractPatternsMap files now).map (fun p => p.2)

/-- The pattern-id (`signature`) a declaration emits, if any: mirrors the
`patternId` computations in the three `extract*Pattern` visitors, including
the early `if (!node.id) return` exits. -/
def declPatternId : Decl → Option String
  | .func none _ _ => none
  | .func (some _) params isAsync =>
    some ("function-" ++ toString params.length ++ "-params-"
      ++ (if isAsync then "async" else "sync"))
  | .cls none _ => none
  | .cls (some _) members =>
    some ("class-"
      ++ toString (members.filter (fun m => m.isClassMethod && m.kind == "method")).length
      ++ "-methods")
  | .imp source specifiers _ =>
    some ("import-"
      ++ (if (String.mk (source.data.take 2) == "./")
            || (String.mk (source.data.take 3) == "../") then "relative" else "package")
      ++ "-" ++ toString specifiers.length)

/-- Number of declarations across all parsed files that emit signature `key`. -/
def countDecls (files : List SrcFile) (key : String) : Nat :=
  (files.map (fun f => f.decls.countP (fun d => declPatternId d == some key))).sum

/-- Frequency recorded for signature `key` in an extracted pattern list
(0 when the signature has no entry). -/
def freqInList (patterns : List CodePattern) (key : String) : Nat :=
  match patterns.find? (fun p => p.id == key) with
  | some p => p.frequency
  | none => 0

/-- Frequency recorded for signature `key` in the accumulator map. -/
def freqInMap (m : PatternMap) (key : String) : Nat :=
  match mapGet m key with
  | some p => p.frequency
  | none => 0

/-- `package.json` as `generateCodebaseFingerprint` reads it: the key lists
of `dependencies` and `devDependencies`, in their insertion order. -/
structure PackageManifest where
  dependencies : List String
  devDependencies : List String
deriving DecidableEq

/-- `ContextManager.generateCodebaseFingerprint` (the manifest argument is
`none` when no `package.json` exists). -/
def generateCodebaseFingerprint : Option PackageManifest → String
  | some pkg =>
    joinWith "," (depSort pkg.dependencies) ++ "|" ++ joinWith "," (depSort pkg.devDependencies)
  | none => "unknown"

/-! ## Similarity retrieval (`ContextManager.searchSimilarContext`)

The source delegates item scoring to the external `fuse.js` library
(`new Fuse(..., { keys, threshold: 0.6 })`). -/

/-- Splits a (lower-cased) character list into maximal alphanumeric terms. -/
def splitTermsAux (acc : List Char) : List Char → List (List Char)
  | [] => if acc = [] then [] else [acc.reverse]
  | c :: rest =>
    if c.isAlphanum then splitTermsAux (c :: acc) rest
    else if acc = [] then splitTermsAux [] rest
    else acc.reverse :: splitTermsAux [] rest

/-- The query's lower-cased alphanumeric terms. -/
def queryTerms (s : String) : List (List Char) :=
  splitTermsAux [] (s.data.map Char.toLower)

/-- Modelled from the spec: the `fuse.js` acceptance test (the library is an
external npm dependency, not part of this repository). Spec §4.4 describes it
as "approximate (typo-tolerant) matching ... using a permissive similarity
threshold (accepts moderate dissimilarity)" and the glossary as "text matching
tolerant of partial term overlap, ranked by closeness". The model scores an
item by the fraction of query terms occurring (case-insensitively) in its
searched fields and accepts when the dissimilarity `1 - overlap` is at most
the configured threshold 0.6, i.e. when at least 40% of the query terms
overlap. -/
def fuseAccepts (query : String) (texts : List String) : Bool :=
  let terms := queryTerms query
  let matched := terms.countP (fun t => texts.any (fun x => hasSub t (x.data.map Char.toLower)))
  !terms.isEmpty && decide (4 * terms.length ≤ 10 * matched)

/-- `ContextManager.searchSimilarContext` over the persisted snapshot
(`none` when no `compressed.json` exists): patterns are matched on
name+description, decisions on title+decision+rationale; an item is returned
when the fuzzy search accepts it. (The relevance ranking of accepted items is
not modelled; the claims below only concern emptiness.) -/
def searchSimilarContext (ctx : Option CompressedContext) (query : String) :
    List CodePattern × List ArchitecturalDecision :=
  match ctx with
  | none => ([], [])
  | some context =>
    (context.patterns.filter (fun p => fuseAccepts query [p.name, p.description]),
     context.decisions.filter (fun d => fuseAccepts query [d.title, d.decision, d.rationale]))

/-! ## Prompt manager data model (`prompts.ts` interfaces, `types/index.ts`) -/

/-- The `category` union of `PromptTemplate`. -/
inductive Category where
  | feature
  | bugfix
  | refactor
  | test
  | docs
deriving DecidableEq

/-- `PromptTemplate` (prompts.ts). -/
structure PromptTemplate where
  id : String
  name : String
  category : Category
  template : String
  «variables» : List String
  successRate : Rat
  usageCount : Nat
  lastUsed : String
  aiModel : Option String
deriving DecidableEq

/-- The `outcome` union `'success' | 'failure' | 'partial'`
(the third literal is rendered `mixed` here because its source spelling is a
reserved word in Lean). -/
inductive Outcome where
  | success
  | failure
  | mixed
deriving DecidableEq

/-- The `metadata` record of `PromptVersion`. -/
structure PVMetadata where
  createdAt : String
  usedFor : String
  outcome : Outcome
  feedback : String
deriving DecidableEq

/-- `PromptVersion` (prompts.ts). -/
structure PromptVersion where
  id : String
  templateId : String
  version : String
  content : String
  metadata : PVMetadata
deriving DecidableEq

/-- `PromptPerformance` (prompts.ts). -/
structure PromptPerformance where
  templateId : String
  totalUses : Nat
  successCount : Nat
  failureCount : Nat
  averageRating : Rat
  commonIssues : List String
  lastAnalyzed : String
deriving DecidableEq

/-- The `telemetry` record of `Ticket` (types/index.ts). -/
structure Telemetry where
  events : List String
  alerts : List String
deriving DecidableEq

/-- The `test_plan` record of `Ticket` (types/index.ts). -/
structure TestPlan where
  unit : List String
  e2e : List String
deriving DecidableEq

/-- `Ticket` (types/index.ts). -/
structure Ticket where
  ticket_id : String
  title : String
  outcome : String
  scope_in : List String
  scope_out : List String
  acceptance_criteria : List String
  apidiff : Option (List String)
  dbdiff : Option (List String)
  ui_components : Option (List String)
  telemetry : Telemetry
  test_plan : TestPlan
  timebox_hours : Nat
  owner : String
deriving DecidableEq

/-- `Spec` (types/index.ts); passed to `generatePrompt` but never read by
`fillTemplate`. -/
structure Spec where
  title : String
  description : String
  requirements : List String
  acceptance_criteria : List String
  technical_notes : Option (List String)
deriving DecidableEq

/-- The three standards blobs assembled by `loadStandards`. -/
structure Standards where
  coding : String
  testing : String
  techstack : String
deriving DecidableEq

/-- The `PromptManager` file-backed state: the `templates/` directory
(file id → stored template), the `versions/` directory, and the
`performance.json` record map. -/
structure PMState where
  templates : List (String × PromptTemplate)
  versions : List (String × PromptVersion)
  performance : List (String × PromptPerformance)
deriving DecidableEq

/-! ## Default templates (`PromptManager.getDefaultTemplates`) -/

/-- The `feature-implementation` seed template. -/
def featureImplementationTemplate : PromptTemplate :=
  { id := "feature-implementation"
    name := "Feature Implementation"
    category := .feature
    template := "# Feature Implementation Task\n\n## Context\n\x7b\x7bCONTEXT_SUMMARY\x7d\x7d\n"
      ++ "\n## Development Standards\n\x7b\x7bDEVELOPMENT_STANDARDS\x7d\x7d\n"
      ++ "\n## Tech Stack\n\x7b\x7bTECH_STACK\x7d\x7d\n"
      ++ "\n## Testing Standards\n\x7b\x7bTESTING_STANDARDS\x7d\x7d\n"
      ++ "\n## Patterns to Follow\n\x7b\x7bCODE_PATTERNS\x7d\x7d\n"
      ++ "\n## Architectural Constraints\n\x7b\x7bARCHITECTURAL_DECISIONS\x7d\x7d\n"
      ++ "\n## Task Requirements\n**Feature**: \x7b\x7bFEATURE_NAME\x7d\x7d\n"
      ++ "**Outcome**: \x7b\x7bEXPECTED_OUTCOME\x7d\x7d\n"
      ++ "\n**Acceptance Criteria**:\n\x7b\x7bACCEPTANCE_CRITERIA\x7d\x7d\n"
      ++ "\n**API Changes**:\n\x7b\x7bAPI_DIFF\x7d\x7d\n"
      ++ "\n**UI Components**:\n\x7b\x7bUI_COMPONENTS\x7d\x7d\n"
      ++ "\n## Test Requirements\n\x7b\x7bTEST_PLAN\x7d\x7d\n"
      ++ "\n## Important Reminders\n"
      ++ "- Follow the development standards and tech stack specified above\n"
      ++ "- Use only the technologies listed in the tech stack\n"
      ++ "- Follow established code patterns shown above\n"
      ++ "- Include comprehensive error handling (common AI oversight)\n"
      ++ "- Add proper TypeScript types for all new code\n"
      ++ "- Write tests that match the acceptance criteria\n"
      ++ "- Avoid over-abstraction - keep it concrete initially\n"
      ++ "\n## Files to Reference\n\x7b\x7bRELEVANT_FILES\x7d\x7d\n"
      ++ "\n## Common Pitfalls to Avoid\n\x7b\x7bPITFALLS\x7d\x7d\n"
      ++ "\n## AI-Specific Guidelines\n"
      ++ "- Don\x27t introduce new dependencies without checking the tech stack first\n"
      ++ "- Follow the exact naming conventions specified in standards\n"
      ++ "- Implement error handling patterns consistently\n"
      ++ "- Write tests alongside implementation, not as an afterthought"
    «variables» := ["CONTEXT_SUMMARY", "DEVELOPMENT_STANDARDS", "TECH_STACK",
      "TESTING_STANDARDS", "CODE_PATTERNS", "ARCHITECTURAL_DECISIONS", "FEATURE_NAME",
      "EXPECTED_OUTCOME", "ACCEPTANCE_CRITERIA", "API_DIFF", "UI_COMPONENTS", "TEST_PLAN",
      "RELEVANT_FILES", "PITFALLS"]
    successRate := 0
    usageCount := 0
    lastUsed := ""
    aiModel := some "any" }

/-- The `bug-fix` seed template. -/
def bugFixTemplate : PromptTemplate :=
  { id := "bug-fix"
    name := "Bug Fix"
    category := .bugfix
    template := "# Bug Fix Task\n\n## Context\n\x7b\x7bCONTEXT_SUMMARY\x7d\x7d\n"
      ++ "\n## Current Patterns\n\x7b\x7bCODE_PATTERNS\x7d\x7d\n"
      ++ "\n## Bug Report\n**Issue**: \x7b\x7bBUG_DESCRIPTION\x7d\x7d\n"
      ++ "**Expected**: \x7b\x7bEXPECTED_BEHAVIOR\x7d\x7d\n"
      ++ "**Actual**: \x7b\x7bACTUAL_BEHAVIOR\x7d\x7d\n"
      ++ "**Steps to Reproduce**: \x7b\x7bREPRODUCTION_STEPS\x7d\x7d\n"
      ++ "\n## Files Involved\n\x7b\x7bRELEVANT_FILES\x7d\x7d\n"
      ++ "\n## Fix Requirements\n"
      ++ "- Maintain existing patterns and architecture\n"
      ++ "- Add tests to prevent regression\n"
      ++ "- Update documentation if necessary\n"
      ++ "- Consider edge cases that might have similar issues\n"
      ++ "\n## Test Strategy\n\x7b\x7bTEST_PLAN\x7d\x7d\n"
      ++ "\n## Avoid These Common Mistakes\n\x7b\x7bPITFALLS\x7d\x7d"
    «variables» := ["CONTEXT_SUMMARY", "CODE_PATTERNS", "BUG_DESCRIPTION",
      "EXPECTED_BEHAVIOR", "ACTUAL_BEHAVIOR", "REPRODUCTION_STEPS", "RELEVANT_FILES",
      "TEST_PLAN", "PITFALLS"]
    successRate := 0
    usageCount := 0
    lastUsed := ""
    aiModel := some "any" }

/-- The `refactor` seed template. -/
def refactorTemplate : PromptTemplate :=
  { id := "refactor"
    name := "Code Refactoring"
    category := .refactor
    template := "# Refactoring Task\n\n## Context\n\x7b\x7bCONTEXT_SUMMARY\x7d\x7d\n"
      ++ "\n## Current Patterns\n\x7b\x7bCODE_PATTERNS\x7d\x7d\n"
      ++ "\n## Refactoring Goal\n**Target**: \x7b\x7bREFACTOR_TARGET\x7d\x7d\n"
      ++ "**Reason**: \x7b\x7bREFACTOR_REASON\x7d\x7d\n"
      ++ "**Success Criteria**: \x7b\x7bSUCCESS_CRITERIA\x7d\x7d\n"
      ++ "\n## Constraints\n"
      ++ "- Must maintain existing functionality (no behavior changes)\n"
      ++ "- Keep existing tests passing\n"
      ++ "- Follow established patterns\n"
      ++ "- Improve code quality metrics\n"
      ++ "\n## Architectural Decisions to Respect\n\x7b\x7bARCHITECTURAL_DECISIONS\x7d\x7d\n"
      ++ "\n## Files to Modify\n\x7b\x7bRELEVANT_FILES\x7d\x7d\n"
      ++ "\n## Testing Strategy\n"
      ++ "- All existing tests must pass\n"
      ++ "- Add tests for new internal structure if needed\n"
      ++ "- Consider integration test coverage\n"
      ++ "\n## Common Refactoring Pitfalls\n\x7b\x7bPITFALLS\x7d\x7d"
    «variables» := ["CONTEXT_SUMMARY", "CODE_PATTERNS", "REFACTOR_TARGET",
      "REFACTOR_REASON", "SUCCESS_CRITERIA", "ARCHITECTURAL_DECISIONS", "RELEVANT_FILES",
      "PITFALLS"]
    successRate := 0
    usageCount := 0
    lastUsed := ""
    aiModel := some "any" }

/-- `PromptManager.getDefaultTemplates`. -/
def getDefaultTemplates : List PromptTemplate :=
  [featureImplementationTemplate, bugFixTemplate, refactorTemplate]

/-- `PromptManager.initializePrompts` (the `templates/` directory after the
call): each default template is written only when no file with its id exists
yet. -/
def initPrompts (st : PMState) : PMState :=
  getDefaultTemplates.foldl
    (fun s t =>
      if (mapGet s.templates t.id).isSome then s
      else { s with templates := mapInsert s.templates t.id t })
    st

/-- `PromptManager.getTemplates`: the stored template values, in directory
order. -/
def getTemplates (st : PMState) : List PromptTemplate :=
  st.templates.map (fun p => p.2)

/-- `PromptManager.selectBestTemplate`. Mirrors the source control flow: an
early return fires only when the matched category's template exists,
otherwise the next heuristic is tried; note that the title tests are
lower-cased while the outcome test is not. -/
def selectBestTemplate (templates : List PromptTemplate) (ticket : Ticket) :
    Except String PromptTemplate :=
  let tryBugfix :=
    if strIncludes (lowerStr ticket.title) "fix" || strIncludes (lowerStr ticket.title) "bug" then
      templates.find? (fun t => t.category == Category.bugfix)
    else none
  match tryBugfix with
  | some t => .ok t
  | none =>
    let tryRefactor :=
      if strIncludes (lowerStr ticket.title) "refactor" || strIncludes ticket.outcome "improve" then
        templates.find? (fun t => t.category == Category.refactor)
      else none
    match tryRefactor with
    | some t => .ok t
    | none =>
      match templates.find? (fun t => t.category == Category.feature) with
      | some t => .ok t
      | none => .error "No prompt template found"

/-! ## Prompt compilation (`PromptManager.fillTemplate` and helpers) -/

/-- `PromptManager.formatPatterns`. -/
def formatPatterns (patterns : List CodePattern) : String :=
  joinWith "\n\n" ((patterns.take 5).map (fun pattern =>
    "### " ++ pattern.name ++ "\n- Used " ++ toString pattern.frequency
      ++ "x across " ++ toString pattern.files.length ++ " files\n- "
      ++ pattern.description ++ "\n- Example: `" ++ pattern.«example» ++ "`"))

/-- `PromptManager.formatDecisions`. -/
def formatDecisions (decisions : List ArchitecturalDecision) : String :=
  joinWith "\n\n" (decisions.map (fun decision =>
    "### " ++ decision.title ++ "\n- **Decision**: " ++ decision.decision
      ++ "\n- **Rationale**: " ++ decision.rationale))

/-- `PromptManager.formatTestPlan`. -/
def formatTestPlan (testPlan : TestPlan) : String :=
  let unit := joinWith "\n" (testPlan.unit.map (fun test => "- **Unit**: " ++ test))
  let e2e := joinWith "\n" (testPlan.e2e.map (fun test => "- **E2E**: " ++ test))
  unit ++ "\n" ++ e2e

/-- `PromptManager.getRelevantFiles`. -/
def getRelevantFiles (patterns : List CodePattern) : String :=
  let files := uniqAux [] (patterns.flatMap (fun p => p.files))
  joinWith "\n" ((files.take 10).map (fun file => "- " ++ file))

/-- `PromptManager.formatPitfalls`. -/
def formatPitfalls (pitfalls : List CommonPitfall) : String :=
  joinWith "\n\n" (pitfalls.map (fun pitfall =>
    "### " ++ pitfall.pattern ++ "\n- **Problem**: " ++ pitfall.description
      ++ "\n- **Solution**: " ++ pitfall.solution))

/-- The `data` argument of `fillTemplate`. -/
structure FillData where
  ticket : Ticket
  spec : Option Spec
  context : CompressedContext
  relevantPatterns : List CodePattern
  relevantDecisions : List ArchitecturalDecision
  standards : Option Standards
deriving DecidableEq

/-- JavaScript `x || 'dflt'` on an optional string (`undefined` and the
empty string are both falsy). -/
def orDefault (o : Option String) (dflt : String) : String :=
  match o with
  | none => dflt
  | some s => if s = "" then dflt else s

/-- The `replacements` record of `fillTemplate`, as an association list in
its source insertion order (JavaScript object iteration order for string
keys). -/
def replacements (data : FillData) : List (String × String) :=
  [("CONTEXT_SUMMARY", data.context.summary),
   ("CODE_PATTERNS", formatPatterns data.relevantPatterns),
   ("ARCHITECTURAL_DECISIONS", formatDecisions data.relevantDecisions),
   ("DEVELOPMENT_STANDARDS", orDefault (data.standards.map (fun s => s.coding))
      "No coding standards found"),
   ("TESTING_STANDARDS", orDefault (data.standards.map (fun s => s.testing))
      "No testing standards found"),
   ("TECH_STACK", orDefault (data.standards.map (fun s => s.techstack))
      "No tech stack documented"),
   ("FEATURE_NAME", data.ticket.title),
   ("EXPECTED_OUTCOME", data.ticket.outcome),
   ("ACCEPTANCE_CRITERIA",
      joinWith "\n" (data.ticket.acceptance_criteria.map (fun ac => "- " ++ ac))),
   ("API_DIFF",
      orDefault (data.ticket.apidiff.map
        (fun l => joinWith "\n" (l.map (fun api => "- " ++ api)))) "None specified"),
   ("UI_COMPONENTS",
      orDefault (data.ticket.ui_components.map
        (fun l => joinWith "\n" (l.map (fun ui => "- " ++ ui)))) "None specified"),
   ("TEST_PLAN", formatTestPlan data.ticket.test_plan),
   ("RELEVANT_FILES", getRelevantFiles data.relevantPatterns),
   ("PITFALLS", formatPitfalls data.context.pitfalls),
   ("BUG_DESCRIPTION", data.ticket.outcome),
   ("EXPECTED_BEHAVIOR", "As described in acceptance criteria"),
   ("ACTUAL_BEHAVIOR", "Current behavior differs from expected"),
   ("REPRODUCTION_STEPS", "Steps to reproduce the issue"),
   ("REFACTOR_TARGET", data.ticket.title),
   ("REFACTOR_REASON", data.ticket.outcome),
   ("SUCCESS_CRITERIA", joinWith ", " data.ticket.acceptance_criteria)]

/-- The fixed replacement keys, in order. -/
def replacementKeys : List String :=
  ["CONTEXT_SUMMARY", "CODE_PATTERNS", "ARCHITECTURAL_DECISIONS",
   "DEVELOPMENT_STANDARDS", "TESTING_STANDARDS", "TECH_STACK", "FEATURE_NAME",
   "EXPECTED_OUTCOME", "ACCEPTANCE_CRITERIA", "API_DIFF", "UI_COMPONENTS",
   "TEST_PLAN", "RELEVANT_FILES", "PITFALLS", "BUG_DESCRIPTION",
   "EXPECTED_BEHAVIOR", "ACTUAL_BEHAVIOR", "REPRODUCTION_STEPS",
   "REFACTOR_TARGET", "REFACTOR_REASON", "SUCCESS_CRITERIA"]

/-- The literal pattern `\x7b\x7bKEY\x7d\x7d` handed to `new RegExp(...)`. -/
def phKey (k : String) : String := "\x7b\x7b" ++ k ++ "\x7d\x7d"

/-- One replacement step of `fillTemplate`'s loop:
`content.replace(regex, value || 'Not specified')`. -/
def fillStep (content : String) (kv : String × String) : String :=
  strReplaceAll (phKey kv.1) (if kv.2 = "" then "Not specified" else kv.2) content

/-- `PromptManager.fillTemplate`. -/
def fillTemplate (template : PromptTemplate) (data : FillData) : String :=
  (replacements data).foldl fillStep template.template

/-- `PromptManager.loadStandards`; the `files` argument maps a file name in
the `standards/` directory to its content when the file exists. -/
def loadStandards (files : String → Option String) : Standards :=
  let codingContent :=
    ["development-best-practices.md", "code-style-guide.md"].foldl
      (fun acc f => match files f with
        | some content => acc ++ content ++ "\n\n"
        | none => acc) ""
  let codingContent :=
    if codingContent = "" then
      match files "coding-standards.md" with
      | some content => content
      | none => ""
    else codingContent
  { coding :=
      if codingContent = "" then
        "No coding standards found. Run `sherpa add:standard` to create."
      else codingContent
    testing :=
      match files "testing-standards.md" with
      | some content => content
      | none => "No testing standards found. Run `sherpa add:standard --type testing` to create."
    techstack :=
      match files "tech-stack.md" with
      | some content => content
      | none => "No tech stack documented. Run `sherpa add:standard --type techstack` to create." }

/-- `PromptManager.savePromptVersion`: writes a fresh version record whose id
is `templateId-Date.now()`. -/
def savePromptVersion (st : PMState) (templateId content : String) (ticket : Ticket)
    (now : String) : PMState :=
  let version : PromptVersion :=
    { id := templateId ++ "-" ++ now
      templateId := templateId
      version := "1.0.0"
      content := content
      metadata :=
        { createdAt := now
          usedFor := ticket.ticket_id
          outcome := .success
          feedback := "" } }
  { st with versions := mapInsert st.versions version.id version }

/-- `PromptManager.generatePrompt`: `ctx` is the persisted
`CompressedContext` snapshot (if any), `stdFiles` the `standards/` directory,
`st` the prompt store. Returns the emitted text (or the thrown error) along
with the resulting store state. -/
def generatePrompt (ctx : Option CompressedContext) (stdFiles : String → Option String)
    (st : PMState) (ticket : Ticket) (spec : Option Spec) (now : String) :
    Except String String × PMState :=
  match ctx with
  | none => (.error "No context found. Run `sherpa context:build` first.", st)
  | some context =>
    match selectBestTemplate (getTemplates st) ticket with
    | .error e => (.error e, st)
    | .ok template =>
      let relevantContext := searchSimilarContext ctx (ticket.title ++ " " ++ ticket.outcome)
      let standards := loadStandards stdFiles
      let promptContent := fillTemplate template
        { ticket := ticket
          spec := spec
          context := context
          relevantPatterns := relevantContext.1
          relevantDecisions := relevantContext.2
          standards := some standards }
      let st := savePromptVersion st template.id promptContent ticket now
      (.ok promptContent, st)

/-! ## Performance feedback (`recordPromptOutcome`,
`updateTemplatePerformance`, `analyzePromptPerformance`) -/

/-- `PromptManager.updateTemplatePerformance`. -/
def updateTemplatePerformance (st : PMState) (templateId : String) (outcome : Outcome)
    (now : String) : PMState :=
  let perf :=
    match mapGet st.performance templateId with
    | some p => p
    | none =>
      { templateId := templateId
        totalUses := 0
        successCount := 0
        failureCount := 0
        averageRating := 0
        commonIssues := []
        lastAnalyzed := now }
  let existed := (mapGet st.performance templateId).isSome
  let perf := { perf with totalUses := perf.totalUses + 1 }
  let perf :=
    match outcome with
    | .success => { perf with successCount := perf.successCount + 1 }
    | .failure => { perf with failureCount := perf.failureCount + 1 }
    | .mixed => perf
  let perf :=
    { perf with
      lastAnalyzed := now
      averageRating := (perf.successCount : Rat) / (perf.totalUses : Rat) }
  { st with
    performance :=
      if existed then mapSet st.performance templateId perf
      else mapInsert st.performance templateId perf }

/-- `PromptManager.recordPromptOutcome`: a no-op when no version file with
that id exists; otherwise rewrites the version's outcome/feedback and updates
the template's performance record. -/
def recordPromptOutcome (st : PMState) (versionId : String) (outcome : Outcome)
    (feedback : String) (now : String) : PMState :=
  match mapGet st.versions versionId with
  | none => st
  | some version =>
    let version' :=
      { version with metadata :=
        { version.metadata with outcome := outcome, feedback := feedback } }
    let st := { st with versions := mapSet st.versions versionId version' }
    updateTemplatePerformance st version.templateId outcome now

/-- `PromptManager.analyzePromptPerformance`: `Object.values` of
`performance.json` (empty when the file does not exist). -/
def analyzePromptPerformance (st : PMState) : List PromptPerformance :=
  st.performance.map (fun p => p.2)

/-- The underperformer filter of `promptOptimizeCommand`
(src/commands/prompt-optimize.ts):
`performance.filter(p => p.averageRating < 0.7 && p.totalUses > 3)`. -/
def underPerforming (performance : List PromptPerformance) : List PromptPerformance :=
  performance.filter (fun p =>
    decide (p.averageRating < 7/10) && decide (3 < p.totalUses))

/-- The logging condition inside `PromptManager.optimizePrompts`
(prompts.ts line 491): `perf.averageRating < 0.7 && perf.totalUses > 5`. -/
def optimizePromptsFlags (perf : PromptPerformance) : Bool :=
  decide (perf.averageRating < 7/10) && decide (5 < perf.totalUses)

/-! ## Claim-side (spec-worded) definitions and concrete fixtures

`claimSelectBestTemplate` and `claimFunctionMatchCount` transcribe the claim
text (not the source); they exist only to be compared against the
source-derived definitions. Everything else here is concrete input data. -/

/-- The selection rule exactly as the claim words it: a first-match,
case-insensitive substring test on the ticket title AND outcome; when the
matched category has no template it falls back directly to
feature-implementation. -/
def claimSelectBestTemplate (templates : List PromptTemplate) (ticket : Ticket) :
    Except String PromptTemplate :=
  let fallback : Except String PromptTemplate :=
    match templates.find? (fun t => t.category == Category.feature) with
    | some t => .ok t
    | none => .error "No prompt template found"
  if strIncludes (lowerStr ticket.title) "fix" || strIncludes (lowerStr ticket.title) "bug" then
    match templates.find? (fun t => t.category == Category.bugfix) with
    | some t => .ok t
    | none => fallback
  else if strIncludes (lowerStr ticket.title) "refactor"
      || strIncludes (lowerStr ticket.outcome) "improve" then
    match templates.find? (fun t => t.category == Category.refactor) with
    | some t => .ok t
    | none => fallback
  else fallback

/-- The claim's matching notion for function signatures: a function
declaration matches `(params, sync|async)` by parameter count and async-ness
alone (no requirement that the declaration be named). -/
def claimFunctionMatches (nParams : Nat) (isAsync : Bool) : Decl → Bool
  | .func _ ps a => ps.length == nParams && a == isAsync
  | _ => false

/-- Number of declarations matching `(params, sync|async)` in the claim's
sense, across all parsed files. -/
def claimFunctionMatchCount (files : List SrcFile) (nParams : Nat) (isAsync : Bool) : Nat :=
  (files.map (fun f => f.decls.countP (claimFunctionMatches nParams isAsync))).sum

/-- A ticket fixture with the given title and outcome. -/
def mkTicket (title outcome : String) : Ticket :=
  { ticket_id := "T-1"
    title := title
    outcome := outcome
    scope_in := []
    scope_out := []
    acceptance_criteria := ["works"]
    apidiff := none
    dbdiff := none
    ui_components := none
    telemetry := ⟨[], []⟩
    test_plan := ⟨["unit test"], ["e2e test"]⟩
    timebox_hours := 4
    owner := "dev" }

/-- Scenario A's source tree: three 2-parameter synchronous functions and one
1-parameter asynchronous function. -/
def scenAFiles : List SrcFile :=
  [⟨"a.ts",
    [.func (some "f") [⟨true, "x", false⟩, ⟨true, "y", false⟩] false,
     .func (some "g") [⟨true, "x", false⟩, ⟨true, "y", false⟩] false,
     .func (some "h") [⟨true, "x", false⟩, ⟨true, "y", false⟩] false,
     .func (some "k") [⟨true, "x", false⟩] true]⟩]

/-- A file whose only declaration is an anonymous (default-export style)
2-parameter synchronous function declaration. -/
def anonFnFiles : List SrcFile :=
  [⟨"a.ts", [.func none [⟨true, "x", false⟩, ⟨true, "y", false⟩] false]⟩]

/-- The implicit `tech-stack-react` decision record
(`extractImplicitDecisions`). -/
def reactDecision : ArchitecturalDecision :=
  { id := "tech-stack-react"
    title := "Use React for UI"
    decision := "Chosen React as the UI framework"
    rationale := "React provides component-based architecture and strong ecosystem"
    consequences := ["Need to manage component lifecycle", "JSX syntax required"]
    date := "2024-01-01T00:00:00.000Z"
    files := ["package.json"] }

/-- A populated snapshot: Scenario A's extracted patterns plus an implicit
decision. -/
def populatedContext : CompressedContext :=
  { patterns := extractPatterns scenAFiles "2024-01-01T00:00:00.000Z"
    decisions := [reactDecision]
    pitfalls := []
    summary := "This codebase primarily uses functions."
    lastUpdated := "2024-01-01T00:00:00.000Z"
    codebaseFingerprint := "react|typescript" }

/-- The empty prompt store. -/
def emptyPMState : PMState := ⟨[], [], []⟩

/-- A user-overridden template stored under the `feature-implementation` id. -/
def overriddenTemplate : PromptTemplate :=
  { featureImplementationTemplate with
    name := "User override"
    template := "My own prompt body" }

/-- A store in which `feature-implementation` already exists (as a user
override). -/
def overrideStore : PMState := ⟨[("feature-implementation", overriddenTemplate)], [], []⟩

/-- A template whose body uses a placeholder name outside the fixed
replacement key set. -/
def unknownKeyTemplate : PromptTemplate :=
  { featureImplementationTemplate with
    id := "custom"
    template := "\x7b\x7bFOO\x7d\x7d" }

/-- A template whose placeholders all name fixed replacement keys. -/
def knownKeyTemplate : PromptTemplate :=
  { featureImplementationTemplate with
    id := "custom2"
    template := "Feature: \x7b\x7bFEATURE_NAME\x7d\x7d!" }

/-- Concrete `fillTemplate` data built over the populated snapshot. -/
def fillDataFix : FillData :=
  { ticket := mkTicket "Add search" "Search works"
    spec := none
    context := populatedContext
    relevantPatterns := []
    relevantDecisions := []
    standards := none }

/-- Fill data whose ticket title is the JavaScript replacement escape `$&`
(brace-free, but reinserting the matched placeholder when substituted). -/
def dollarTitleData : FillData :=
  { fillDataFix with ticket := mkTicket "$&" "Search works" }

/-- Fill data over a snapshot whose summary is empty. -/
def emptySummaryData : FillData :=
  { fillDataFix with context := { populatedContext with summary := "" } }

/-- A template whose body is exactly the `CONTEXT_SUMMARY` placeholder. -/
def summaryOnlyTemplate : PromptTemplate :=
  { featureImplementationTemplate with
    id := "custom3"
    template := phKey "CONTEXT_SUMMARY" }

/-- A version store holding one version of the `bug-fix` template. -/
def oneVersionState : PMState :=
  ⟨[],
   [("bug-fix-1700000000000",
     { id := "bug-fix-1700000000000"
       templateId := "bug-fix"
       version := "1.0.0"
       content := "body"
       metadata := ⟨"2024-01-01T00:00:00.000Z", "T-1", .success, ""⟩ })],
   []⟩

/-! ## Placeholder-totality machinery (claim-side view of a template body)

A template body is viewed as an interleaving of brace-free literal segments
and `\x7b\x7bKEY\x7d\x7d` placeholders; this is the hypothesis language for
the totality theorem, while `fillTemplate` itself stays the source-derived
function under test. -/

/-- `s` contains neither brace character. -/
def noBraces (s : List Char) : Prop := ∀ c ∈ s, c ≠ lbrace ∧ c ≠ rbrace

instance (s : List Char) : Decidable (noBraces s) :=
  inferInstanceAs (Decidable (∀ c ∈ s, c ≠ lbrace ∧ c ≠ rbrace))

/-- The character form of the pattern `\x7b\x7bKEY\x7d\x7d`. -/
def phpat (k : List Char) : List Char := lbrace :: lbrace :: (k ++ [rbrace, rbrace])

/-- A template-body segment: literal text or a placeholder. -/
inductive Seg where
  | lit (s : List Char)
  | ph (k : List Char)
deriving DecidableEq

/-- Concatenation of segments back into a character list. -/
def assemble : List Seg → List Char
  | [] => []
  | .lit s :: rest => s ++ assemble rest
  | .ph k :: rest => phpat k ++ assemble rest

/-- A well-formed segment over key set `K`: literal text is brace-free, and a
placeholder names a nonempty brace-free key of `K`. -/
def SegGood (K : List (List Char)) : Seg → Prop
  | .lit s => noBraces s
  | .ph k => k ∈ K ∧ noBraces k ∧ k ≠ []

instance (K : List (List Char)) (sg : Seg) : Decidable (SegGood K sg) :=
  match sg with
  | .lit s => inferInstanceAs (Decidable (noBraces s))
  | .ph k => inferInstanceAs (Decidable (k ∈ K ∧ noBraces k ∧ k ≠ []))

/-- Replacing one placeholder key by literal replacement text. -/
def substSeg (k repl : List Char) : Seg → Seg
  | .lit s => .lit s
  | .ph k' => if k' = k then .lit repl else .ph k'

/-- The replacement step of `fillTemplate` at the character level. -/
def fillStepData (content : List Char) (kv : String × String) : List Char :=
  replaceAll (phKey kv.1).data
    (if kv.2 = "" then "Not specified" else kv.2).data content

/-- The segment decomposition of `knownKeyTemplate`'s body. -/
def knownKeySegs : List Seg :=
  [.lit "Feature: ".data, .ph "FEATURE_NAME".data, .lit "!".data]

/-- Invariant of the pattern accumulator: every stored record's `id` equals
its map key (true by construction in `extract*Pattern`). -/
def MapIdOK (m : PatternMap) : Prop := ∀ p ∈ m, p.2.id = p.1

/-- One `recordPromptOutcome` call's arguments (with its wall-clock reading). -/
structure OutcomeCall where
  versionId : String
  outcome : Outcome
  feedback : String
  now : String
deriving DecidableEq

/-- A sequence of `recordPromptOutcome` calls. -/
def runCalls (st : PMState) (calls : List OutcomeCall) : PMState :=
  calls.foldl (fun s c => recordPromptOutcome s c.versionId c.outcome c.feedback c.now) st

/-- The store holds a version with id `vid` belonging to template `T`. -/
def refersToB (st : PMState) (T vid : String) : Bool :=
  match mapGet st.versions vid with
  | some v => v.templateId == T
  | none => false

/-- Shape of the performance record for template `T` after `k` recorded
outcomes of which `s` were successes and `f` failures, the most recent at
time `last` (no record at all when `k = 0`). -/
def PerfInv (st : PMState) (T : String) (k s f : Nat) (last : String) : Prop :=
  if k = 0 then s = 0 ∧ f = 0 ∧ mapGet st.performance T = none
  else mapGet st.performance T = some
    { templateId := T
      totalUses := k
      successCount := s
      failureCount := f
      averageRating := (s : Rat) / (k : Rat)
      commonIssues := []
      lastAnalyzed := last }

/-- Three outcome recordings against the stored `bug-fix` version. -/
def c3calls : List OutcomeCall :=
  [⟨"bug-fix-1700000000000", .success, "good", "t1"⟩,
   ⟨"bug-fix-1700000000000", .mixed, "meh", "t2"⟩,
   ⟨"bug-fix-1700000000000", .failure, "bad", "t3"⟩]

/-! ## Store (association-list) lemmas -/

theorem mapGet_nil (k : String) : mapGet ([] : List (String × α)) k = none := rfl

theorem mapGet_cons_pos {p : String × α} {k : String} (m : List (String × α))
    (h : (p.1 == k) = true) : mapGet (p :: m) k = some p.2 := by
  simp [mapGet, List.find?, h]

theorem mapGet_cons_neg {p : String × α} {k : String} (m : List (String × α))
    (h : (p.1 == k) = false) : mapGet (p :: m) k = mapGet m k := by
  simp [mapGet, List.find?, h]

theorem mapSet_cons_pos {p : String × α} {k : String} (m : List (String × α)) (v : α)
    (h : (p.1 == k) = true) : mapSet (p :: m) k v = (k, v) :: mapSet m k v := by
  have hp : p.1 = k := by simpa using h
  simp [mapSet, hp]

theorem mapSet_cons_neg {p : String × α} {k : String} (m : List (String × α)) (v : α)
    (h : (p.1 == k) = false) : mapSet (p :: m) k v = p :: mapSet m k v := by
  have hp : ¬ p.1 = k := by simpa using h
  simp [mapSet, hp]

theorem mapInsert_cons (p : String × α) (m : List (String × α)) (k : String) (v : α) :
    mapInsert (p :: m) k v = p :: mapInsert m k v := by
  simp [mapInsert]

theorem beq_false_of_ne {k' k : String} (h : k' ≠ k) : (k == k') = false := by
  simp only [beq_eq_false_iff_ne, ne_eq]
  exact fun e => h e.symm

theorem mapGet_mapSet_self {m : List (String × α)} {k : String} {w : α} (v : α)
    (h : mapGet m k = some w) : mapGet (mapSet m k v) k = some v := by
  induction m with
  | nil => simp [mapGet] at h
  | cons p m ih =>
    cases hp : p.1 == k with
    | true =>
      rw [mapSet_cons_pos m v hp]
      exact mapGet_cons_pos _ (by simp)
    | false =>
      rw [mapGet_cons_neg m hp] at h
      rw [mapSet_cons_neg m v hp, mapGet_cons_neg _ hp]
      exact ih h

theorem mapGet_mapSet_ne {k' k : String} (m : List (String × α)) (v : α) (h : k' ≠ k) :
    mapGet (mapSet m k v) k' = mapGet m k' := by
  induction m with
  | nil => rfl
  | cons p m ih =>
    cases hp : p.1 == k with
    | true =>
      have hpk : p.1 = k := by simpa using hp
      rw [mapSet_cons_pos m v hp, mapGet_cons_neg _ (beq_false_of_ne h),
        mapGet_cons_neg m (by rw [hpk]; exact beq_false_of_ne h)]
      exact ih
    | false =>
      rw [mapSet_cons_neg m v hp]
      cases hq : p.1 == k' with
      | true => rw [mapGet_cons_pos _ hq, mapGet_cons_pos m hq]
      | false => rw [mapGet_cons_neg _ hq, mapGet_cons_neg m hq]; exact ih

theorem mapGet_mapInsert_self {m : List (String × α)} {k : String} (v : α)
    (h : mapGet m k = none) : mapGet (mapInsert m k v) k = some v := by
  induction m with
  | nil => exact mapGet_cons_pos _ (by simp)
  | cons p m ih =>
    cases hp : p.1 == k with
    | true => rw [mapGet_cons_pos m hp] at h; cases h
    | false =>
      rw [mapGet_cons_neg m hp] at h
      rw [mapInsert_cons, mapGet_cons_neg _ hp]
      exact ih h

theorem mapGet_mapInsert_ne {k' k : String} (m : List (String × α)) (v : α) (h : k' ≠ k) :
    mapGet (mapInsert m k v) k' = mapGet m k' := by
  induction m with
  | nil =>
    rw [show mapInsert ([] : List (String × α)) k v = [(k, v)] from rfl,
      mapGet_cons_neg _ (beq_false_of_ne h)]
  | cons p m ih =>
    rw [mapInsert_cons]
    cases hq : p.1 == k' with
    | true => rw [mapGet_cons_pos _ hq, mapGet_cons_pos m hq]
    | false => rw [mapGet_cons_neg _ hq, mapGet_cons_neg m hq]; exact ih

theorem mapGet_mapInsert_some {m : List (String × α)} {k' k : String} {w : α} (v : α)
    (h : mapGet m k' = some w) : mapGet (mapInsert m k v) k' = some w := by
  induction m with
  | nil => simp [mapGet] at h
  | cons p m ih =>
    rw [mapInsert_cons]
    cases hp : p.1 == k' with
    | true => rw [mapGet_cons_pos m hp] at h; rw [mapGet_cons_pos _ hp]; exact h
    | false =>
      rw [mapGet_cons_neg m hp] at h
      rw [mapGet_cons_neg _ hp]
      exact ih h

/-! ## Template seeding (`initializePrompts`) lemmas -/

/-- The loop body of `initPrompts`. -/
def initStep (s : PMState) (template : PromptTemplate) : PMState :=
  if (mapGet s.templates template.id).isSome then s
  else { s with templates := mapInsert s.templates template.id template }

theorem initPrompts_eq (st : PMState) :
    initPrompts st =
      initStep (initStep (initStep st featureImplementationTemplate) bugFixTemplate)
        refactorTemplate := rfl

theorem initStep_preserves {s : PMState} {id : String} {t : PromptTemplate}
    (u : PromptTemplate) (h : mapGet s.templates id = some t) :
    mapGet (initStep s u).templates id = some t := by
  unfold initStep
  split
  · exact h
  · exact mapGet_mapInsert_some u h

theorem initStep_noop {s : PMState} {u : PromptTemplate}
    (h : (mapGet s.templates u.id).isSome) : initStep s u = s := by
  unfold initStep
  simp [h]

theorem initStep_id_isSome (s : PMState) (u : PromptTemplate) :
    (mapGet (initStep s u).templates u.id).isSome := by
  unfold initStep
  cases h : (mapGet s.templates u.id) with
  | some t => simp [h]
  | none =>
    simp only [h, Option.isSome_none, Bool.false_eq_true, if_neg]
    simp [mapGet_mapInsert_self u h]

theorem initStep_isSome_mono {s : PMState} {id : String} (u : PromptTemplate)
    (h : (mapGet s.templates id).isSome) : (mapGet (initStep s u).templates id).isSome := by
  cases hg : mapGet s.templates id with
  | none => simp [hg] at h
  | some t => simp [initStep_preserves u hg]

theorem initStep_none_ne {s : PMState} {id : String} (u : PromptTemplate)
    (h : mapGet s.templates id = none) (hne : u.id ≠ id) :
    mapGet (initStep s u).templates id = none := by
  unfold initStep
  split
  · exact h
  · rw [mapGet_mapInsert_ne _ _ (fun e => hne e.symm)]
    exact h

theorem initStep_seeds {s : PMState} (u : PromptTemplate)
    (h : mapGet s.templates u.id = none) :
    mapGet (initStep s u).templates u.id = some u := by
  unfold initStep
  simp only [h, Option.isSome_none, Bool.false_eq_true, if_neg]
  simp [mapGet_mapInsert_self u h]

theorem initPrompts_all_present (st : PMState) :
    ∀ t ∈ getDefaultTemplates, (mapGet (initPrompts st).templates t.id).isSome := by
  intro t ht
  rw [initPrompts_eq]
  simp only [getDefaultTemplates, List.mem_cons, List.mem_singleton, List.not_mem_nil, or_false] at ht
  rcases ht with h | h | h
  · subst h
    exact initStep_isSome_mono _ (initStep_isSome_mono _ (initStep_id_isSome st _))
  · subst h
    exact initStep_isSome_mono _ (initStep_id_isSome _ _)
  · subst h
    exact initStep_id_isSome _ _

/-! ## Claim theorems: template store and performance policy -/

/-- C5: `initializePrompts` is idempotent and override-preserving: every
pre-existing template file keeps its exact stored content; each of the three
fixed templates is seeded exactly when its file is absent; no other file id
is ever written; running the operation twice equals running it once. -/
theorem c5_initialize_prompts_override_preserving :
    (∀ (st : PMState) (id : String) (t : PromptTemplate),
      mapGet st.templates id = some t → mapGet (initPrompts st).templates id = some t) ∧
    (∀ st : PMState, ∀ t ∈ getDefaultTemplates,
      mapGet st.templates t.id = none → mapGet (initPrompts st).templates t.id = some t) ∧
    (∀ (st : PMState) (id : String), mapGet st.templates id = none →
      (∀ t ∈ getDefaultTemplates, t.id ≠ id) → mapGet (initPrompts st).templates id = none) ∧
    (∀ st : PMState, initPrompts (initPrompts st) = initPrompts st) := by
  refine ⟨?_, ?_, ?_, ?_⟩
  · intro st id t h
    rw [initPrompts_eq]
    exact initStep_preserves _ (initStep_preserves _ (initStep_preserves _ h))
  · intro st t ht h
    rw [initPrompts_eq]
    simp only [getDefaultTemplates, List.mem_cons, List.mem_singleton,
      List.not_mem_nil, or_false] at ht
    rcases ht with rfl | rfl | rfl
    · exact initStep_preserves _ (initStep_preserves _ (initStep_seeds _ h))
    · have h1 : mapGet (initStep st featureImplementationTemplate).templates
          bugFixTemplate.id = none :=
        initStep_none_ne _ h (by decide)
      exact initStep_preserves _ (initStep_seeds _ h1)
    · have h1 : mapGet (initStep st featureImplementationTemplate).templates
          refactorTemplate.id = none :=
        initStep_none_ne _ h (by decide)
      have h2 : mapGet (initStep (initStep st featureImplementationTemplate)
          bugFixTemplate).templates refactorTemplate.id = none :=
        initStep_none_ne _ h1 (by decide)
      exact initStep_seeds _ h2
  · intro st id h hne
    rw [initPrompts_eq]
    have h1 := initStep_none_ne (s := st) featureImplementationTemplate h
      (hne _ (by simp [getDefaultTemplates]))
    have h2 := initStep_none_ne bugFixTemplate h1 (hne _ (by simp [getDefaultTemplates]))
    exact initStep_none_ne refactorTemplate h2 (hne _ (by simp [getDefaultTemplates]))
  · intro st
    have hf := initPrompts_all_present st featureImplementationTemplate
      (by simp [getDefaultTemplates])
    have hb := initPrompts_all_present st bugFixTemplate (by simp [getDefaultTemplates])
    have hr := initPrompts_all_present st refactorTemplate (by simp [getDefaultTemplates])
    rw [initPrompts_eq (initPrompts st), initStep_noop hf, initStep_noop hb, initStep_noop hr]

/-- C5 witness: a concrete store holding a user override of
`feature-implementation`; the override survives `initializePrompts`
byte-identically. -/
theorem c5_initialize_prompts_override_preserving_witness :
    mapGet overrideStore.templates "feature-implementation" = some overriddenTemplate ∧
    mapGet (initPrompts overrideStore).templates "feature-implementation" =
      some overriddenTemplate := by
  refine ⟨by decide, ?_⟩
  exact c5_initialize_prompts_override_preserving.1 overrideStore "feature-implementation"
    overriddenTemplate (by decide)

/-- C7: `generatePrompt` with no persisted `CompressedContext` snapshot fails
with the actionable error message and leaves the prompt store untouched — no
`PromptVersion` record is written. -/
theorem c7_generate_prompt_missing_context :
    ∀ (stdFiles : String → Option String) (st : PMState) (ticket : Ticket)
      (spec : Option Spec) (now : String),
      generatePrompt none stdFiles st ticket spec now =
        (Except.error "No context found. Run `sherpa context:build` first.", st) := by
  intro stdFiles st ticket spec now
  rfl

/-- C10: `recordPromptOutcome` with a version id for which no stored version
file exists is a silent no-op: no error, and the whole store (versions and
performance records) is unchanged. -/
theorem c10_record_outcome_unknown_version_noop :
    ∀ (st : PMState) (versionId : String) (outcome : Outcome) (feedback now : String),
      mapGet st.versions versionId = none →
      recordPromptOutcome st versionId outcome feedback now = st := by
  intro st versionId outcome feedback now h
  unfold recordPromptOutcome
  rw [h]

/-- C10 witness: recording an outcome against an id absent from a concrete
store changes nothing. -/
theorem c10_record_outcome_unknown_version_noop_witness :
    mapGet oneVersionState.versions "no-such-version" = none ∧
    recordPromptOutcome oneVersionState "no-such-version" Outcome.failure "bad" "t1" =
      oneVersionState :=
  ⟨by decide,
   c10_record_outcome_unknown_version_noop oneVersionState "no-such-version"
     Outcome.failure "bad" "t1" (by decide)⟩

/-- C4: the underperformer filter of the prompt-optimize command selects
exactly the performance records with `averageRating < 0.7` and
`totalUses > 3`; both bounds are the fixed literals of the filter. -/
theorem c4_flag_underperforming_bounds :
    ∀ (performance : List PromptPerformance) (p : PromptPerformance),
      p ∈ underPerforming performance ↔
        p ∈ performance ∧ p.averageRating < 7/10 ∧ 3 < p.totalUses := by
  intro performance p
  simp [underPerforming, List.mem_filter, and_assoc]

/-! ## Claim theorems: template selection (C2) -/

/-- C2 counterexample: for title `"Add search"` and outcome
`"Improve error messages"`, the claim's case-insensitive rule picks the
refactor template while `selectBestTemplate` picks feature-implementation
(the source lower-cases only the title, so `'Improve ...'` does not contain
`'improve'`). -/
theorem c2_template_selection_cex :
    (selectBestTemplate getDefaultTemplates
        (mkTicket "Add search" "Improve error messages")).map (fun t => t.id) =
      Except.ok "feature-implementation" ∧
    (claimSelectBestTemplate getDefaultTemplates
        (mkTicket "Add search" "Improve error messages")).map (fun t => t.id) =
      Except.ok "refactor" := by
  constructor
  · rfl
  · rfl

/-- C2 (amended): selection is a first-match substring test that is
case-insensitive on the title but case-sensitive on the outcome
(`'improve'` must appear literally), and a matched category whose template is
missing falls through to the next rule rather than directly to
feature-implementation; feature-implementation is the final default.
Scenario B holds: "Fix login bug" selects bug-fix, "Add search" selects
feature-implementation. -/
theorem c2_template_selection_amended :
    (∀ (ts : List PromptTemplate) (tk : Ticket) (t : PromptTemplate),
      (strIncludes (lowerStr tk.title) "fix" || strIncludes (lowerStr tk.title) "bug") = true →
      ts.find? (fun u => u.category == Category.bugfix) = some t →
      selectBestTemplate ts tk = .ok t) ∧
    (∀ (ts : List PromptTemplate) (tk : Ticket) (t : PromptTemplate),
      (strIncludes (lowerStr tk.title) "fix" || strIncludes (lowerStr tk.title) "bug") = false →
      (strIncludes (lowerStr tk.title) "refactor" || strIncludes tk.outcome "improve") = true →
      ts.find? (fun u => u.category == Category.refactor) = some t →
      selectBestTemplate ts tk = .ok t) ∧
    (∀ (ts : List PromptTemplate) (tk : Ticket) (t : PromptTemplate),
      (strIncludes (lowerStr tk.title) "fix" || strIncludes (lowerStr tk.title) "bug") = false →
      (strIncludes (lowerStr tk.title) "refactor" || strIncludes tk.outcome "improve") = false →
      ts.find? (fun u => u.category == Category.feature) = some t →
      selectBestTemplate ts tk = .ok t) ∧
    (∀ (ts : List PromptTemplate) (tk : Ticket) (t : PromptTemplate),
      ts.find? (fun u => u.category == Category.bugfix) = none →
      (strIncludes (lowerStr tk.title) "refactor" || strIncludes tk.outcome "improve") = true →
      ts.find? (fun u => u.category == Category.refactor) = some t →
      selectBestTemplate ts tk = .ok t) ∧
    (selectBestTemplate getDefaultTemplates (mkTicket "Fix login bug" "Login works")).map
        (fun t => t.id) = Except.ok "bug-fix" ∧
    (selectBestTemplate getDefaultTemplates (mkTicket "Add search" "Search works")).map
        (fun t => t.id) = Except.ok "feature-implementation" := by
  refine ⟨?_, ?_, ?_, ?_, by rfl, by rfl⟩
  · intro ts tk t htitle hfind
    simp [selectBestTemplate, htitle, hfind]
  · intro ts tk t htitle hout hfind
    simp [selectBestTemplate, htitle, hout, hfind]
  · intro ts tk t htitle hout hfind
    simp [selectBestTemplate, htitle, hout, hfind]
  · intro ts tk t hbug hout hfind
    cases htitle : strIncludes (lowerStr tk.title) "fix" || strIncludes (lowerStr tk.title) "bug" with
    | true => simp [selectBestTemplate, htitle, hbug, hout, hfind]
    | false => simp [selectBestTemplate, htitle, hout, hfind]

set_option maxRecDepth 20000 in
/-- C2 witness: the first amended rule applied to the default templates and
the ticket "Fix login bug". -/
theorem c2_template_selection_amended_witness :
    (strIncludes (lowerStr (mkTicket "Fix login bug" "Login works").title) "fix"
      || strIncludes (lowerStr (mkTicket "Fix login bug" "Login works").title) "bug") = true ∧
    getDefaultTemplates.find? (fun u => u.category == Category.bugfix) = some bugFixTemplate ∧
    selectBestTemplate getDefaultTemplates (mkTicket "Fix login bug" "Login works") =
      .ok bugFixTemplate :=
  ⟨by decide, by decide,
   c2_template_selection_amended.1 getDefaultTemplates (mkTicket "Fix login bug" "Login works")
     bugFixTemplate (by decide) (by decide)⟩

/-! ## Pattern-frequency lemmas (C6, C8) -/

theorem freqInMap_mapSet_bump {m : PatternMap} {pid : String} {ex ex' : CodePattern}
    (hm : mapGet m pid = some ex) (hfreq : ex'.frequency = ex.frequency + 1) :
    ∀ key, freqInMap (mapSet m pid ex') key =
      freqInMap m key + (if pid == key then 1 else 0) := by
  intro key
  by_cases hk : key = pid
  · subst hk
    unfold freqInMap
    rw [mapGet_mapSet_self ex' hm, hm]
    simp [hfreq]
  · unfold freqInMap
    rw [mapGet_mapSet_ne m ex' hk, beq_false_of_ne hk]
    simp

theorem freqInMap_mapInsert_one {m : PatternMap} {pid : String} {fresh : CodePattern}
    (hm : mapGet m pid = none) (hfresh : fresh.frequency = 1) :
    ∀ key, freqInMap (mapInsert m pid fresh) key =
      freqInMap m key + (if pid == key then 1 else 0) := by
  intro key
  by_cases hk : key = pid
  · subst hk
    unfold freqInMap
    rw [mapGet_mapInsert_self fresh hm, hm]
    simp [hfresh]
  · unfold freqInMap
    rw [mapGet_mapInsert_ne m fresh hk, beq_false_of_ne hk]
    simp

theorem extractFunctionPattern_freq (now file : String) (name : Option String)
    (params : List Param) (isAsync : Bool) (m : PatternMap) (key : String) :
    freqInMap (extractFunctionPattern now file name params isAsync m) key =
      freqInMap m key +
        (if declPatternId (.func name params isAsync) == some key then 1 else 0) := by
  cases name with
  | none => simp [extractFunctionPattern, declPatternId]
  | some fname =>
    rw [show declPatternId (.func (some fname) params isAsync) =
      some ("function-" ++ toString params.length ++ "-params-"
        ++ (if isAsync then "async" else "sync")) from rfl]
    unfold extractFunctionPattern
    cases hm : mapGet m ("function-" ++ toString params.length ++ "-params-"
        ++ (if isAsync then "async" else "sync")) with
    | some ex =>
      simp only [hm]
      rw [freqInMap_mapSet_bump hm rfl key]
      simp
    | none =>
      simp only [hm]
      rw [freqInMap_mapInsert_one hm rfl key]
      simp

theorem extractClassPattern_freq (now file : String) (name : Option String)
    (members : List Member) (m : PatternMap) (key : String) :
    freqInMap (extractClassPattern now file name members m) key =
      freqInMap m key + (if declPatternId (.cls name members) == some key then 1 else 0) := by
  cases name with
  | none => simp [extractClassPattern, declPatternId]
  | some cname =>
    rw [show declPatternId (.cls (some cname) members) =
      some ("class-"
        ++ toString (members.filter (fun mb => mb.isClassMethod && mb.kind == "method")).length
        ++ "-methods") from rfl]
    unfold extractClassPattern
    cases hm : mapGet m ("class-"
        ++ toString (members.filter (fun mb => mb.isClassMethod && mb.kind == "method")).length
        ++ "-methods") with
    | some ex =>
      simp only [hm]
      rw [freqInMap_mapSet_bump hm rfl key]
      simp
    | none =>
      simp only [hm]
      rw [freqInMap_mapInsert_one hm rfl key]
      simp

theorem extractImportPattern_freq (now file source : String) (specifiers : List String)
    (hasDefaultImport : Bool) (m : PatternMap) (key : String) :
    freqInMap (extractImportPattern now file source specifiers hasDefaultImport m) key =
      freqInMap m key +
        (if declPatternId (.imp source specifiers hasDefaultImport) == some key
          then 1 else 0) := by
  rw [show declPatternId (.imp source specifiers hasDefaultImport) =
    some ("import-"
      ++ (if (String.mk (source.data.take 2) == "./")
            || (String.mk (source.data.take 3) == "../") then "relative" else "package")
      ++ "-" ++ toString specifiers.length) from rfl]
  unfold extractImportPattern
  cases hm : mapGet m ("import-"
      ++ (if (String.mk (source.data.take 2) == "./")
            || (String.mk (source.data.take 3) == "../") then "relative" else "package")
      ++ "-" ++ toString specifiers.length) with
  | some ex =>
    simp only [hm]
    rw [freqInMap_mapSet_bump hm rfl key]
    simp
  | none =>
    simp only [hm]
    rw [freqInMap_mapInsert_one hm rfl key]
    simp

theorem processDecl_freq (now file : String) (m : PatternMap) (d : Decl) (key : String) :
    freqInMap (processDecl now file m d) key =
      freqInMap m key + (if declPatternId d == some key then 1 else 0) := by
  cases d with
  | func name params isAsync => exact extractFunctionPattern_freq now file name params isAsync m key
  | cls name members => exact extractClassPattern_freq now file name members m key
  | imp source specifiers hasDefaultImport =>
    exact extractImportPattern_freq now file source specifiers hasDefaultImport m key

theorem foldl_processDecl_freq (now file : String) (decls : List Decl) :
    ∀ (m : PatternMap) (key : String),
      freqInMap (decls.foldl (fun m d => processDecl now file m d) m) key =
        freqInMap m key + decls.countP (fun d => declPatternId d == some key) := by
  induction decls with
  | nil => intro m key; simp
  | cons d decls ih =>
    intro m key
    rw [List.foldl_cons, ih, processDecl_freq, List.countP_cons]
    omega

theorem extractPatternsMap_freq (files : List SrcFile) (now : String) :
    ∀ (m : PatternMap) (key : String),
      freqInMap (files.foldl
          (fun m f => f.decls.foldl (fun m d => processDecl now f.file m d) m) m) key =
        freqInMap m key + countDecls files key := by
  induction files with
  | nil => intro m key; simp [countDecls]
  | cons f files ih =>
    intro m key
    rw [List.foldl_cons, ih, foldl_processDecl_freq]
    simp [countDecls]
    omega

/-! Bridging from the accumulator map to the returned value list. -/

theorem mapGet_id {m : PatternMap} {pid : String} {ex : CodePattern}
    (hok : MapIdOK m) (hm : mapGet m pid = some ex) : ex.id = pid := by
  unfold mapGet at hm
  rcases Option.map_eq_some'.mp hm with ⟨pair, hfind, hsnd⟩
  have hmem := List.mem_of_find?_eq_some hfind
  have hbeq := List.find?_some hfind
  have h1 : pair.1 = pid := by simpa using hbeq
  have h2 := hok pair hmem
  rw [← hsnd, h2, h1]

theorem mapIdOK_mapSet {m : PatternMap} {k : String} {v : CodePattern}
    (hok : MapIdOK m) (hv : v.id = k) : MapIdOK (mapSet m k v) := by
  intro p hp
  unfold mapSet at hp
  rcases List.mem_map.mp hp with ⟨q, hq, hpq⟩
  by_cases hqk : (q.1 == k) = true
  · rw [← hpq]
    simp [hqk, hv]
  · rw [← hpq]
    simp only [Bool.not_eq_true] at hqk
    simp only [hqk, Bool.false_eq_true, if_neg]
    exact hok q hq

theorem mapIdOK_mapInsert {m : PatternMap} {k : String} {v : CodePattern}
    (hok : MapIdOK m) (hv : v.id = k) : MapIdOK (mapInsert m k v) := by
  intro p hp
  unfold mapInsert at hp
  rcases List.mem_append.mp hp with hp | hp
  · exact hok p hp
  · rcases List.mem_singleton.mp hp with rfl
    exact hv

theorem extractFunctionPattern_idOK (now file : String) (name : Option String)
    (params : List Param) (isAsync : Bool) {m : PatternMap} (hok : MapIdOK m) :
    MapIdOK (extractFunctionPattern now file name params isAsync m) := by
  cases name with
  | none => exact hok
  | some fname =>
    unfold extractFunctionPattern
    cases hm : mapGet m ("function-" ++ toString params.length ++ "-params-"
        ++ (if isAsync then "async" else "sync")) with
    | some ex =>
      simp only [hm]
      exact mapIdOK_mapSet hok (by rw [show ({ ex with
        frequency := ex.frequency + 1, files := ex.files ++ [file],
        lastSeen := now } : CodePattern).id = ex.id from rfl, mapGet_id hok hm])
    | none =>
      simp only [hm]
      exact mapIdOK_mapInsert hok rfl

theorem extractClassPattern_idOK (now file : String) (name : Option String)
    (members : List Member) {m : PatternMap} (hok : MapIdOK m) :
    MapIdOK (extractClassPattern now file name members m) := by
  cases name with
  | none => exact hok
  | some cname =>
    unfold extractClassPattern
    cases hm : mapGet m ("class-"
        ++ toString (members.filter (fun mb => mb.isClassMethod && mb.kind == "method")).length
        ++ "-methods") with
    | some ex =>
      simp only [hm]
      exact mapIdOK_mapSet hok (by rw [show ({ ex with
        frequency := ex.frequency + 1, files := ex.files ++ [file],
        lastSeen := now } : CodePattern).id = ex.id from rfl, mapGet_id hok hm])
    | none =>
      simp only [hm]
      exact mapIdOK_mapInsert hok rfl

theorem extractImportPattern_idOK (now file source : String) (specifiers : List String)
    (hasDefaultImport : Bool) {m : PatternMap} (hok : MapIdOK m) :
    MapIdOK (extractImportPattern now file source specifiers hasDefaultImport m) := by
  unfold extractImportPattern
  cases hm : mapGet m ("import-"
      ++ (if (String.mk (source.data.take 2) == "./")
            || (String.mk (source.data.take 3) == "../") then "relative" else "package")
      ++ "-" ++ toString specifiers.length) with
  | some ex =>
    simp only [hm]
    exact mapIdOK_mapSet hok (by rw [show ({ ex with
      frequency := ex.frequency + 1, files := ex.files ++ [file],
      lastSeen := now } : CodePattern).id = ex.id from rfl, mapGet_id hok hm])
  | none =>
    simp only [hm]
    exact mapIdOK_mapInsert hok rfl

theorem processDecl_idOK (now file : String) {m : PatternMap} (d : Decl)
    (hok : MapIdOK m) : MapIdOK (processDecl now file m d) := by
  cases d with
  | func name params isAsync => exact extractFunctionPattern_idOK now file name params isAsync hok
  | cls name members => exact extractClassPattern_idOK now file name members hok
  | imp source specifiers hasDefaultImport =>
    exact extractImportPattern_idOK now file source specifiers hasDefaultImport hok

theorem extractPatternsMap_idOK (files : List SrcFile) (now : String) :
    MapIdOK (extractPatternsMap files now) := by
  unfold extractPatternsMap
  have main : ∀ (fs : List SrcFile) (m : PatternMap), MapIdOK m →
      MapIdOK (fs.foldl (fun m f => f.decls.foldl (fun m d => processDecl now f.file m d) m) m) := by
    intro fs
    induction fs with
    | nil => intro m h; exact h
    | cons f fs ih =>
      intro m h
      rw [List.foldl_cons]
      apply ih
      have inner : ∀ (ds : List Decl) (m : PatternMap), MapIdOK m →
          MapIdOK (ds.foldl (fun m d => processDecl now f.file m d) m) := by
        intro ds
        induction ds with
        | nil => intro m h; exact h
        | cons d ds ihd =>
          intro m h
          rw [List.foldl_cons]
          exact ihd _ (processDecl_idOK now f.file d h)
      exact inner f.decls m h
  exact main files [] (by intro p hp; cases hp)

theorem freqInList_map_snd {m : PatternMap} (hok : MapIdOK m) (key : String) :
    freqInList (m.map (fun p => p.2)) key = freqInMap m key := by
  induction m with
  | nil => rfl
  | cons p m ih =>
    have hid : p.2.id = p.1 := hok p (by simp)
    have hok' : MapIdOK m := fun q hq => hok q (by simp [hq])
    unfold freqInList freqInMap mapGet
    cases hq : p.1 == key with
    | true =>
      have : (p.2.id == key) = true := by rw [hid]; exact hq
      simp [List.find?, this, hq]
    | false =>
      have : (p.2.id == key) = false := by rw [hid]; exact hq
      simp only [List.map_cons, List.find?, this, hq]
      exact ih hok'

/-- The load-bearing counting fact: in one build, the stored frequency of
every signature equals the number of declarations that emit it. -/
theorem extractPatterns_count (files : List SrcFile) (now key : String) :
    freqInList (extractPatterns files now) key = countDecls files key := by
  unfold extractPatterns
  rw [freqInList_map_snd (extractPatternsMap_idOK files now) key]
  have h := extractPatternsMap_freq files now [] key
  unfold extractPatternsMap
  rw [h]
  simp [freqInMap, mapGet]

/-! ## Claim theorems: pattern frequency (C6) and build determinism (C8) -/

/-- C6 counterexample: a tree whose only declaration is an anonymous
2-parameter synchronous function declaration. The claim's matching notion
(parameter count plus sync/async) counts it, but the extractor skips
declarations without an `id`, so the stored frequency is 0, not 1. -/
theorem c6_pattern_frequency_cex :
    freqInList (extractPatterns anonFnFiles "2024-01-01T00:00:00.000Z")
      "function-2-params-sync" = 0 ∧
    claimFunctionMatchCount anonFnFiles 2 false = 1 := by
  constructor
  · rfl
  · rfl

/-- C6 (amended): restricted to successfully parsed files, the stored
frequency of every signature equals the number of declarations emitting that
signature — where a function or class declaration without a name (e.g. an
anonymous default export) is skipped and emits none. Scenario A (all
functions named) holds exactly as claimed: three 2-parameter synchronous
functions and one 1-parameter asynchronous function yield
`function-2-params-sync` at frequency 3 and `function-1-params-async` at
frequency 1. -/
theorem c6_pattern_frequency_amended :
    (∀ (files : List SrcFile) (now key : String),
      freqInList (extractPatterns files now) key = countDecls files key) ∧
    freqInList (extractPatterns scenAFiles "2024-01-01T00:00:00.000Z")
      "function-2-params-sync" = 3 ∧
    freqInList (extractPatterns scenAFiles "2024-01-01T00:00:00.000Z")
      "function-1-params-async" = 1 := by
  refine ⟨extractPatterns_count, by rfl, by rfl⟩

/-! Order lemmas for the dependency sort (C8). -/

theorem listLe_total : ∀ a b : List Char, (listLe a b || listLe b a) = true := by
  intro a
  induction a with
  | nil => intro b; simp [listLe]
  | cons x xs ih =>
    intro b
    cases b with
    | nil => simp [listLe]
    | cons y ys =>
      rcases Nat.lt_trichotomy x.toNat y.toNat with h | h | h
      · simp [listLe, h]
      · simp only [listLe, h, lt_irrefl, if_false, if_neg]
        simpa using ih ys
      · simp [listLe, h, Nat.lt_asymm h]

theorem listLe_trans : ∀ a b c : List Char,
    listLe a b = true → listLe b c = true → listLe a c = true := by
  intro a
  induction a with
  | nil => intro b c _ _; simp [listLe]
  | cons x xs ih =>
    intro b c hab hbc
    cases b with
    | nil => simp [listLe] at hab
    | cons y ys =>
      cases c with
      | nil => simp [listLe] at hbc
      | cons z zs =>
        simp only [listLe] at hab hbc ⊢
        split_ifs at hab hbc ⊢ with h1 h2 h3 h4 h5 h6 <;>
          first
          | rfl
          | omega
          | (exact ih ys zs hab hbc)

theorem char_eq_of_toNat_eq {a b : Char} (h : a.toNat = b.toNat) : a = b :=
  Char.ext (UInt32.ext h)

theorem listLe_antisymm : ∀ a b : List Char,
    listLe a b = true → listLe b a = true → a = b := by
  intro a
  induction a with
  | nil =>
    intro b _ hba
    cases b with
    | nil => rfl
    | cons y ys => simp [listLe] at hba
  | cons x xs ih =>
    intro b hab hba
    cases b with
    | nil => simp [listLe] at hab
    | cons y ys =>
      simp only [listLe] at hab hba
      split_ifs at hab hba with h1 h2 h3 <;> try omega
      have hxy : x = y := char_eq_of_toNat_eq (by omega)
      rw [hxy, ih ys hab hba]

instance : IsTotal String (fun a b => strLeB a b = true) :=
  ⟨fun a b => by
    rcases Bool.or_eq_true_iff.mp (listLe_total a.data b.data) with h | h
    · exact Or.inl h
    · exact Or.inr h⟩

instance : IsTrans String (fun a b => strLeB a b = true) :=
  ⟨fun a b c hab hbc => listLe_trans a.data b.data c.data hab hbc⟩

instance : IsAntisymm String (fun a b => strLeB a b = true) :=
  ⟨fun a b hab hba => String.ext (listLe_antisymm a.data b.data hab hba)⟩

/-- `array.sort()` output depends only on the multiset of entries. -/
theorem depSort_eq_of_perm {l l' : List String} (h : l.Perm l') :
    depSort l = depSort l' :=
  List.eq_of_perm_of_sorted
    ((List.perm_insertionSort _ l).trans (h.trans (List.perm_insertionSort _ l').symm))
    (List.sorted_insertionSort _ l) (List.sorted_insertionSort _ l')

/-- C8: building twice over an unchanged tree yields identical per-signature
frequencies whatever the two build timestamps are, and the fingerprint is
order-independent: permuting the manifest's dependency and devDependency
entries leaves it unchanged, because both key lists are sorted before being
joined. -/
theorem c8_build_determinism :
    (∀ (files : List SrcFile) (now1 now2 key : String),
      freqInList (extractPatterns files now1) key =
        freqInList (extractPatterns files now2) key) ∧
    (∀ deps deps' devDeps devDeps' : List String,
      deps.Perm deps' → devDeps.Perm devDeps' →
      generateCodebaseFingerprint (some ⟨deps, devDeps⟩) =
        generateCodebaseFingerprint (some ⟨deps', devDeps'⟩)) := by
  constructor
  · intro files now1 now2 key
    rw [extractPatterns_count, extractPatterns_count]
  · intro deps deps' devDeps devDeps' h1 h2
    rw [show generateCodebaseFingerprint (some ⟨deps, devDeps⟩) =
        joinWith "," (depSort deps) ++ "|" ++ joinWith "," (depSort devDeps) from rfl,
      show generateCodebaseFingerprint (some ⟨deps', devDeps'⟩) =
        joinWith "," (depSort deps') ++ "|" ++ joinWith "," (depSort devDeps') from rfl,
      depSort_eq_of_perm h1, depSort_eq_of_perm h2]

/-- C8 witness: a concrete permuted manifest gives the same fingerprint. -/
theorem c8_build_determinism_witness :
    (["react", "next"] : List String).Perm ["next", "react"] ∧
    (["typescript"] : List String).Perm ["typescript"] ∧
    generateCodebaseFingerprint (some ⟨["react", "next"], ["typescript"]⟩) =
      generateCodebaseFingerprint (some ⟨["next", "react"], ["typescript"]⟩) :=
  ⟨by decide, by decide,
   c8_build_determinism.2 ["react", "next"] ["next", "react"] ["typescript"] ["typescript"]
     (by decide) (by decide)⟩

/-! ## Claim theorem: empty retrieval (C9) -/

/-- C9: `searchSimilarContext` returns empty pattern and decision lists —
and no error — when no snapshot is persisted, and when no stored item clears
the similarity threshold; in particular the query `"zzz-no-match-qqq"`
against a populated context returns `([], [])`. -/
theorem c9_empty_retrieval :
    (∀ query : String, searchSimilarContext none query = ([], [])) ∧
    (∀ (ctx : CompressedContext) (query : String),
      (∀ p ∈ ctx.patterns, fuseAccepts query [p.name, p.description] = false) →
      (∀ d ∈ ctx.decisions, fuseAccepts query [d.title, d.decision, d.rationale] = false) →
      searchSimilarContext (some ctx) query = ([], [])) ∧
    searchSimilarContext (some populatedContext) "zzz-no-match-qqq" = ([], []) := by
  refine ⟨fun _ => rfl, ?_, by rfl⟩
  intro ctx query hp hd
  rw [show searchSimilarContext (some ctx) query =
      (ctx.patterns.filter (fun p => fuseAccepts query [p.name, p.description]),
       ctx.decisions.filter (fun d => fuseAccepts query [d.title, d.decision, d.rationale]))
    from rfl]
  rw [List.filter_eq_nil_iff.mpr (by intro p hmem; simp [hp p hmem]),
    List.filter_eq_nil_iff.mpr (by intro d hmem; simp [hd d hmem])]

/-- C9 witness: the nothing-clears-threshold rule applied to the populated
context and the no-match query. -/
theorem c9_empty_retrieval_witness :
    (∀ p ∈ populatedContext.patterns,
      fuseAccepts "zzz-no-match-qqq" [p.name, p.description] = false) ∧
    searchSimilarContext (some populatedContext) "zzz-no-match-qqq" = ([], []) :=
  ⟨by decide,
   c9_empty_retrieval.2.1 populatedContext "zzz-no-match-qqq" (by decide) (by decide)⟩

/-! ## Feedback-accounting lemmas (C3) -/

theorem mapGet_setOrInsert_self (m : List (String × α)) (k : String) (v : α) :
    mapGet (if (mapGet m k).isSome then mapSet m k v else mapInsert m k v) k = some v := by
  cases h : mapGet m k with
  | some w => simp only [h, Option.isSome_some, if_pos]; exact mapGet_mapSet_self v h
  | none => simp only [h, Option.isSome_none, Bool.false_eq_true, if_neg]; exact mapGet_mapInsert_self v h

theorem updatePerf_inv {st : PMState} {T : String} {k s f : Nat} {last : String}
    (h : PerfInv st T k s f last) (outcome : Outcome) (now : String) :
    PerfInv (updateTemplatePerformance st T outcome now) T (k + 1)
      (s + (if outcome = .success then 1 else 0))
      (f + (if outcome = .failure then 1 else 0)) now := by
  unfold PerfInv at h ⊢
  rw [if_neg (Nat.succ_ne_zero k)]
  have hproj : ∀ x : List (String × PromptPerformance),
      ({ st with performance := x } : PMState).performance = x := fun _ => rfl
  by_cases hk : k = 0
  · subst hk
    rw [if_pos rfl] at h
    obtain ⟨hs, hf, hnone⟩ := h
    subst hs; subst hf
    simp only [updateTemplatePerformance]
    rw [hproj, mapGet_setOrInsert_self]
    simp only [hnone]
    cases outcome <;> rfl
  · rw [if_neg hk] at h
    simp only [updateTemplatePerformance]
    rw [hproj, mapGet_setOrInsert_self]
    simp only [h]
    cases outcome <;> rfl

theorem refersToB_after_record {st : PMState} {T vid : String} {v : PromptVersion}
    (hv : mapGet st.versions vid = some v) (v' : PromptVersion) (hvt : v'.templateId = T)
    (c : String) (hc : refersToB st T c = true) :
    refersToB { st with versions := mapSet st.versions vid v' } T c = true := by
  unfold refersToB at hc ⊢
  rw [show ({ st with versions := mapSet st.versions vid v' } : PMState).versions =
    mapSet st.versions vid v' from rfl]
  by_cases hcv : c = vid
  · subst hcv
    rw [mapGet_mapSet_self v' hv]
    simp [hvt]
  · rw [mapGet_mapSet_ne _ _ hcv]
    exact hc

theorem runCalls_inv (T : String) : ∀ (calls : List OutcomeCall) (st : PMState)
    (k s f : Nat) (last : String),
    (∀ c ∈ calls, refersToB st T c.versionId = true) →
    PerfInv st T k s f last →
    PerfInv (runCalls st calls) T (k + calls.length)
      (s + calls.countP (fun c => c.outcome == Outcome.success))
      (f + calls.countP (fun c => c.outcome == Outcome.failure))
      (calls.foldl (fun _ c => c.now) last) := by
  intro calls
  induction calls with
  | nil =>
    intro st k s f last _ h
    simpa [runCalls] using h
  | cons c cs ih =>
    intro st k s f last href h
    have hc := href c (by simp)
    unfold refersToB at hc
    cases hv : mapGet st.versions c.versionId with
    | none => rw [hv] at hc; cases hc
    | some v =>
      rw [hv] at hc
      have hvT : v.templateId = T := by simpa using hc
      have hstep : runCalls st (c :: cs) =
          runCalls (recordPromptOutcome st c.versionId c.outcome c.feedback c.now) cs := by
        simp [runCalls]
      set v' : PromptVersion :=
        { v with metadata :=
            { v.metadata with outcome := c.outcome, feedback := c.feedback } } with hv'
      set st1 : PMState := { st with versions := mapSet st.versions c.versionId v' } with hst1
      have hrec : recordPromptOutcome st c.versionId c.outcome c.feedback c.now =
          updateTemplatePerformance st1 v.templateId c.outcome c.now := by
        unfold recordPromptOutcome
        rw [hv]
      rw [hvT] at hrec
      have h1 : PerfInv st1 T k s f last := by
        unfold PerfInv at h ⊢
        exact h
      have h2 := updatePerf_inv h1 c.outcome c.now
      have hrefs : ∀ c' ∈ cs,
          refersToB (updateTemplatePerformance st1 T c.outcome c.now) T c'.versionId = true := by
        intro c' hc'
        exact refersToB_after_record hv v' hvT c'.versionId (href c' (by simp [hc']))
      have hres := ih (updateTemplatePerformance st1 T c.outcome c.now)
        (k + 1) (s + (if c.outcome = .success then 1 else 0))
        (f + (if c.outcome = .failure then 1 else 0)) c.now hrefs h2
      rw [hstep, hrec]
      rw [show (c :: cs).foldl (fun _ c => c.now) last = cs.foldl (fun _ c => c.now) c.now
        from rfl]
      rw [List.countP_cons, List.countP_cons, List.length_cons]
      rw [show k + (cs.length + 1) = (k + 1) + cs.length from by omega]
      rw [show s + (cs.countP (fun c => c.outcome == Outcome.success)
          + (if (c.outcome == Outcome.success) = true then 1 else 0))
        = (s + (if c.outcome = .success then 1 else 0))
          + cs.countP (fun c => c.outcome == Outcome.success) from by
          by_cases hcs : c.outcome = Outcome.success <;> simp [hcs] <;> omega]
      rw [show f + (cs.countP (fun c => c.outcome == Outcome.failure)
          + (if (c.outcome == Outcome.failure) = true then 1 else 0))
        = (f + (if c.outcome = .failure then 1 else 0))
          + cs.countP (fun c => c.outcome == Outcome.failure) from by
          by_cases hcf : c.outcome = Outcome.failure <;> simp [hcf] <;> omega]
      exact hres

theorem countP_success_failure_le (l : List OutcomeCall) :
    l.countP (fun c => c.outcome == Outcome.success)
      + l.countP (fun c => c.outcome == Outcome.failure) ≤ l.length := by
  induction l with
  | nil => simp
  | cons c cs ih =>
    rw [List.countP_cons, List.countP_cons, List.length_cons]
    cases c.outcome <;> simp <;> omega

theorem foldl_now_getLastD : ∀ (l : List OutcomeCall) (init : String),
    l.foldl (fun _ c => c.now) init = (l.map (fun c => c.now)).getLastD init := by
  intro l
  induction l with
  | nil => intro init; rfl
  | cons c cs ih =>
    intro init
    rw [List.foldl_cons, ih c.now, List.map_cons, List.getLastD_cons]

/-! ## Claim theorem: feedback accounting (C3) -/

/-- C3: starting from a store with no performance record for template `T`,
after any nonempty prefix of N `recordPromptOutcome` calls that each
reference an existing version of `T`, the `TemplatePerformance` record for
`T` has `totalUses = N`, `successCount`/`failureCount` equal to the number
of success/failure outcomes (a `'partial'` outcome increments neither),
`successCount + failureCount ≤ N`, `averageRating = successCount/totalUses`,
and `lastAnalyzed` equal to the most recent call's timestamp. -/
theorem c3_feedback_accounting :
    ∀ (st : PMState) (T : String) (calls : List OutcomeCall),
      (∀ c ∈ calls, refersToB st T c.versionId = true) →
      mapGet st.performance T = none →
      ∀ pre rest : List OutcomeCall, calls = pre ++ rest → pre ≠ [] →
      ∃ p : PromptPerformance,
        mapGet (runCalls st pre).performance T = some p ∧
        p.totalUses = pre.length ∧
        p.successCount = pre.countP (fun c => c.outcome == Outcome.success) ∧
        p.failureCount = pre.countP (fun c => c.outcome == Outcome.failure) ∧
        p.successCount + p.failureCount ≤ pre.length ∧
        p.averageRating = (p.successCount : Rat) / (p.totalUses : Rat) ∧
        p.lastAnalyzed = (pre.map (fun c => c.now)).getLastD "" := by
  intro st T calls href hnone pre rest hsplit hne
  have hpre : ∀ c ∈ pre, refersToB st T c.versionId = true := by
    intro c hc
    exact href c (by rw [hsplit]; exact List.mem_append_left rest hc)
  have hinv0 : PerfInv st T 0 0 0 "" := by
    unfold PerfInv
    simp [hnone]
  have hrun := runCalls_inv T pre st 0 0 0 "" hpre hinv0
  unfold PerfInv at hrun
  rw [if_neg (by simpa [List.length_eq_zero] using hne)] at hrun
  simp only [Nat.zero_add] at hrun
  exact ⟨_, hrun, rfl, rfl, rfl, countP_success_failure_le pre, rfl,
    foldl_now_getLastD pre ""⟩

/-- C3 witness: three recorded outcomes (success, partial, failure) against
the stored bug-fix version give totalUses 3, successCount 1, failureCount 1,
averageRating 1/3, lastAnalyzed "t3". -/
theorem c3_feedback_accounting_witness :
    (∀ c ∈ c3calls, refersToB oneVersionState "bug-fix" c.versionId = true) ∧
    mapGet oneVersionState.performance "bug-fix" = none ∧
    (∃ p : PromptPerformance,
      mapGet (runCalls oneVersionState c3calls).performance "bug-fix" = some p ∧
      p.totalUses = c3calls.length ∧
      p.successCount = c3calls.countP (fun c => c.outcome == Outcome.success) ∧
      p.failureCount = c3calls.countP (fun c => c.outcome == Outcome.failure) ∧
      p.successCount + p.failureCount ≤ c3calls.length ∧
      p.averageRating = (p.successCount : Rat) / (p.totalUses : Rat) ∧
      p.lastAnalyzed = (c3calls.map (fun c => c.now)).getLastD "") :=
  ⟨by decide, by decide,
   c3_feedback_accounting oneVersionState "bug-fix" c3calls (by decide) (by decide)
     c3calls [] (by simp) (by decide)⟩

/-! ## Placeholder-totality lemmas (C1) -/

theorem replaceAllNDF_congr : ∀ (f1 : Nat) (s : List Char) (f2 : Nat) (pat repl : List Char),
    s.length ≤ f1 → s.length ≤ f2 →
    replaceAllNDF f1 pat repl s = replaceAllNDF f2 pat repl s := by
  intro f1
  induction f1 with
  | zero =>
    intro s f2 pat repl h1 _
    have hs : s = [] := List.length_eq_zero.mp (Nat.le_zero.mp h1)
    subst hs
    cases f2 <;> rfl
  | succ f1 ih =>
    intro s f2 pat repl h1 h2
    cases s with
    | nil => cases f2 <;> rfl
    | cons c rest =>
      cases f2 with
      | zero => simp at h2
      | succ f2' =>
        simp only [List.length_cons, Nat.add_le_add_iff_right] at h1 h2
        by_cases hcond : pat ≠ [] ∧ pat.isPrefixOf (c :: rest) = true
        · have hp : 1 ≤ pat.length := List.length_pos.mpr hcond.1
          simp only [replaceAllNDF, if_pos hcond]
          congr 1
          apply ih
          · simp only [List.length_drop, List.length_cons]
            omega
          · simp only [List.length_drop, List.length_cons]
            omega
        · simp only [replaceAllNDF, if_neg hcond]
          congr 1
          exact ih rest f2' pat repl h1 h2

theorem replaceAllND_cons_neg {pat : List Char} (repl : List Char) {c : Char} {rest : List Char}
    (h : ¬(pat ≠ [] ∧ pat.isPrefixOf (c :: rest) = true)) :
    replaceAllND pat repl (c :: rest) = c :: replaceAllND pat repl rest := by
  show replaceAllNDF (rest.length + 1) pat repl (c :: rest) = _
  simp only [replaceAllNDF, if_neg h]
  rfl

theorem replaceAllND_match {pat : List Char} (repl : List Char) {s : List Char}
    (hne : pat ≠ []) (hpre : pat.isPrefixOf s = true) :
    replaceAllND pat repl s = repl ++ replaceAllND pat repl (s.drop pat.length) := by
  cases s with
  | nil =>
    cases pat with
    | nil => exact absurd rfl hne
    | cons p ps => simp [List.isPrefixOf] at hpre
  | cons c rest =>
    show replaceAllNDF (rest.length + 1) pat repl (c :: rest) = _
    simp only [replaceAllNDF, if_pos (And.intro hne hpre)]
    congr 1
    have hp : 1 ≤ pat.length := List.length_pos.mpr hne
    apply replaceAllNDF_congr
    · simp only [List.length_drop, List.length_cons]
      omega
    · exact Nat.le_refl _

theorem isPrefixOf_self_append : ∀ (l b : List Char), l.isPrefixOf (l ++ b) = true := by
  intro l b
  induction l with
  | nil => simp [List.isPrefixOf]
  | cons x xs ih => simp [List.isPrefixOf, ih]

theorem replaceAllND_self_append {pat : List Char} (repl b : List Char) (hne : pat ≠ []) :
    replaceAllND pat repl (pat ++ b) = repl ++ replaceAllND pat repl b := by
  rw [replaceAllND_match repl hne (isPrefixOf_self_append pat b), List.drop_left]

theorem replaceAllND_append_pfree {t repl : List Char} :
    ∀ (a b : List Char), (∀ c ∈ a, c ≠ lbrace) →
      replaceAllND (lbrace :: t) repl (a ++ b) = a ++ replaceAllND (lbrace :: t) repl b := by
  intro a
  induction a with
  | nil => intro b _; rfl
  | cons c a ih =>
    intro b hfree
    have hc : c ≠ lbrace := hfree c (by simp)
    have hcond : ¬((lbrace :: t) ≠ [] ∧ (lbrace :: t).isPrefixOf (c :: (a ++ b)) = true) := by
      rintro ⟨-, hp⟩
      simp only [List.isPrefixOf, Bool.and_eq_true, beq_iff_eq] at hp
      exact hc hp.1.symm
    rw [show (c :: a) ++ b = c :: (a ++ b) from rfl, replaceAllND_cons_neg repl hcond,
      ih b (fun x hx => hfree x (by simp [hx]))]
    rfl

theorem pfree_rb_pfx : ∀ (k k' t u : List Char),
    (∀ c ∈ k, c ≠ rbrace) → (∀ c ∈ k', c ≠ rbrace) →
    (k ++ rbrace :: t).isPrefixOf (k' ++ rbrace :: u) = true → k = k' := by
  intro k
  induction k with
  | nil =>
    intro k' t u _ hk' hp
    cases k' with
    | nil => rfl
    | cons c ks =>
      simp only [List.nil_append, List.cons_append, List.isPrefixOf,
        Bool.and_eq_true, beq_iff_eq] at hp
      exact absurd hp.1.symm (hk' c (by simp))
  | cons x xs ih =>
    intro k' t u hk hk' hp
    cases k' with
    | nil =>
      simp only [List.cons_append, List.nil_append, List.isPrefixOf,
        Bool.and_eq_true, beq_iff_eq] at hp
      exact absurd hp.1 (hk x (by simp))
    | cons y ys =>
      simp only [List.cons_append, List.isPrefixOf, Bool.and_eq_true, beq_iff_eq] at hp
      obtain ⟨hxy, hrest⟩ := hp
      subst hxy
      rw [ih ys t u (fun c hc => hk c (by simp [hc])) (fun c hc => hk' c (by simp [hc])) hrest]

theorem phpat_not_pfx_other {k k' : List Char} (hk : noBraces k) (hk' : noBraces k')
    (hne : k ≠ k') (b : List Char) :
    (phpat k).isPrefixOf (phpat k' ++ b) = false := by
  cases h : (phpat k).isPrefixOf (phpat k' ++ b) with
  | false => rfl
  | true =>
    exfalso
    apply hne
    have hshape : phpat k' ++ b =
        lbrace :: lbrace :: (k' ++ rbrace :: rbrace :: b) := by
      simp [phpat]
    rw [hshape] at h
    have hform : phpat k = lbrace :: lbrace :: (k ++ rbrace :: [rbrace]) := by
      simp [phpat]
    rw [hform] at h
    simp only [List.isPrefixOf, Bool.and_eq_true, beq_iff_eq, true_and] at h
    exact pfree_rb_pfx k k' [rbrace] (rbrace :: b)
      (fun c hc => (hk c hc).2) (fun c hc => (hk' c hc).2) h

theorem replaceAllND_ph_other (repl b : List Char) {k k' : List Char}
    (hk : noBraces k) (hk' : noBraces k') (hne : k ≠ k') :
    replaceAllND (phpat k) repl (phpat k' ++ b) =
      phpat k' ++ replaceAllND (phpat k) repl b := by
  obtain ⟨hd, tl, heq, hhd⟩ :
      ∃ hd tl, k' ++ [rbrace, rbrace] ++ b = hd :: tl ∧ hd ≠ lbrace := by
    cases k' with
    | nil => exact ⟨rbrace, rbrace :: b, rfl, by decide⟩
    | cons c ks => exact ⟨c, ks ++ [rbrace, rbrace] ++ b, by simp, (hk' c (by simp)).1⟩
  have hshape : phpat k' ++ b = lbrace :: lbrace :: (k' ++ [rbrace, rbrace] ++ b) := by
    simp [phpat]
  have hcond0 : ¬((phpat k) ≠ [] ∧
      (phpat k).isPrefixOf (lbrace :: lbrace :: (k' ++ [rbrace, rbrace] ++ b)) = true) := by
    rintro ⟨-, hp⟩
    rw [show lbrace :: lbrace :: (k' ++ [rbrace, rbrace] ++ b) = phpat k' ++ b from
      hshape.symm] at hp
    rw [phpat_not_pfx_other hk hk' hne b] at hp
    cases hp
  have hcond1 : ¬((phpat k) ≠ [] ∧
      (phpat k).isPrefixOf (lbrace :: (k' ++ [rbrace, rbrace] ++ b)) = true) := by
    rintro ⟨-, hp⟩
    rw [heq] at hp
    rw [show phpat k = lbrace :: lbrace :: (k ++ [rbrace, rbrace]) from by simp [phpat]] at hp
    simp only [List.isPrefixOf, Bool.and_eq_true, beq_iff_eq, true_and] at hp
    exact hhd hp.1.symm
  rw [hshape, replaceAllND_cons_neg repl hcond0, replaceAllND_cons_neg repl hcond1]
  rw [show k' ++ [rbrace, rbrace] ++ b = (k' ++ [rbrace, rbrace]) ++ b from by simp]
  rw [show phpat k = lbrace :: (lbrace :: (k ++ [rbrace, rbrace])) from by simp [phpat]]
  rw [replaceAllND_append_pfree (k' ++ [rbrace, rbrace]) b
    (by
      intro c hc
      rcases List.mem_append.mp hc with hc | hc
      · exact (hk' c hc).1
      · have hcr : c = rbrace := by simpa using hc
        subst hcr
        decide)]
  simp [phpat]

theorem replaceAllND_assemble {K : List (List Char)} {k repl : List Char}
    (hk : noBraces k) (hkne : k ≠ []) :
    ∀ segs : List Seg, (∀ sg ∈ segs, SegGood K sg) →
      replaceAllND (phpat k) repl (assemble segs) =
        assemble (segs.map (substSeg k repl)) := by
  intro segs
  induction segs with
  | nil => intro _; rfl
  | cons sg rest ih =>
    intro hsegs
    have hrest : ∀ s ∈ rest, SegGood K s := fun s hs => hsegs s (List.mem_cons_of_mem _ hs)
    cases sg with
    | lit s =>
      have hlit : noBraces s := hsegs (.lit s) (by simp)
      rw [show assemble (.lit s :: rest) = s ++ assemble rest from rfl]
      rw [show phpat k = lbrace :: (lbrace :: (k ++ [rbrace, rbrace])) from by simp [phpat]]
      rw [replaceAllND_append_pfree s (assemble rest) (fun c hc => (hlit c hc).1)]
      rw [show lbrace :: (lbrace :: (k ++ [rbrace, rbrace])) = phpat k from by simp [phpat]]
      rw [ih hrest]
      rfl
    | ph k' =>
      obtain ⟨-, hk', -⟩ := hsegs (.ph k') (by simp)
      by_cases hkk : k' = k
      · subst hkk
        rw [show assemble (.ph k' :: rest) = phpat k' ++ assemble rest from rfl]
        rw [replaceAllND_self_append repl (assemble rest) (by simp [phpat])]
        rw [ih hrest, List.map_cons,
          show substSeg k' repl (.ph k') = .lit repl from by simp [substSeg]]
        rfl
      · rw [show assemble (.ph k' :: rest) = phpat k' ++ assemble rest from rfl]
        rw [replaceAllND_ph_other repl (assemble rest) hk hk' (fun e => hkk e.symm)]
        rw [ih hrest, List.map_cons,
          show substSeg k repl (.ph k') = .ph k' from by simp [substSeg, hkk]]
        rfl

theorem assemble_noBraces : ∀ segs : List Seg,
    (∀ sg ∈ segs, SegGood [] sg) → noBraces (assemble segs) := by
  intro segs
  induction segs with
  | nil => intro _ c hc; cases hc
  | cons sg rest ih =>
    intro hsegs
    cases sg with
    | lit s =>
      have hlit : noBraces s := hsegs (.lit s) (by simp)
      intro c hc
      rw [show assemble (.lit s :: rest) = s ++ assemble rest from rfl] at hc
      rcases List.mem_append.mp hc with hc | hc
      · exact hlit c hc
      · exact ih (fun u hu => hsegs u (by simp [hu])) c hc
    | ph k =>
      obtain ⟨hmem, -, -⟩ := hsegs (.ph k) (by simp)
      cases hmem

theorem expandDollar_eq_self (before matched after : List Char) :
    ∀ repl : List Char, dollar ∉ repl → expandDollar before matched after repl = repl := by
  intro repl
  induction repl with
  | nil => intro _; rfl
  | cons c tail ih =>
    intro h
    have hc : c ≠ dollar := fun e => h (by simp [e])
    cases tail with
    | nil => rfl
    | cons d rest =>
      show expandDollar before matched after (c :: d :: rest) = c :: d :: rest
      simp only [expandDollar, if_neg hc]
      rw [ih (fun hm => h (List.mem_cons_of_mem _ hm))]

theorem replaceAllF_nil (fuel : Nat) (pat repl before : List Char) :
    replaceAllF fuel pat repl before [] = [] := by
  cases fuel <;> rfl

theorem replaceAllF_eq_NDF {repl : List Char} (hrep : dollar ∉ repl) :
    ∀ (fuel : Nat) (pat before s : List Char),
      replaceAllF fuel pat repl before s = replaceAllNDF fuel pat repl s := by
  intro fuel
  induction fuel with
  | zero => intro pat before s; cases s <;> rfl
  | succ fuel ih =>
    intro pat before s
    cases s with
    | nil => rfl
    | cons c rest =>
      by_cases hcond : pat ≠ [] ∧ pat.isPrefixOf (c :: rest) = true
      · simp only [replaceAllF, replaceAllNDF, if_pos hcond]
        rw [expandDollar_eq_self _ _ _ repl hrep, ih]
      · simp only [replaceAllF, replaceAllNDF, if_neg hcond]
        rw [ih]

/-- `replaceAll` coincides with the `$`-free scan whenever the replacement
string contains no `$` character. -/
theorem replaceAll_eq_ND {repl : List Char} (hrep : dollar ∉ repl) (pat s : List Char) :
    replaceAll pat repl s = replaceAllND pat repl s :=
  replaceAllF_eq_NDF hrep s.length pat [] s

theorem replaceAllRest_cons_neg {pat : List Char} (repl before : List Char) {c : Char}
    {rest : List Char} (h : ¬(pat ≠ [] ∧ pat.isPrefixOf (c :: rest) = true)) :
    replaceAllRest pat repl before (c :: rest) =
      c :: replaceAllRest pat repl (before ++ [c]) rest := by
  show replaceAllF (rest.length + 1) pat repl before (c :: rest) = _
  simp only [replaceAllF, if_neg h]
  rfl

theorem replaceAllRest_pfree {pat repl : List Char} (hpat : ∃ t, pat = lbrace :: t) :
    ∀ (content before : List Char), (∀ c ∈ content, c ≠ lbrace) →
      replaceAllRest pat repl before content = content := by
  obtain ⟨t, rfl⟩ := hpat
  intro content
  induction content with
  | nil => intro _ _; rfl
  | cons c rest ih =>
    intro before hfree
    have hc : c ≠ lbrace := hfree c (by simp)
    have hcond : ¬((lbrace :: t) ≠ [] ∧ (lbrace :: t).isPrefixOf (c :: rest) = true) := by
      rintro ⟨-, hp⟩
      simp only [List.isPrefixOf, Bool.and_eq_true, beq_iff_eq] at hp
      exact hc hp.1.symm
    rw [replaceAllRest_cons_neg repl before hcond,
      ih (before ++ [c]) (fun x hx => hfree x (by simp [hx]))]

theorem replaceAllRest_self (repl before : List Char) {pat : List Char} (hne : pat ≠ []) :
    replaceAllRest pat repl before pat = expandDollar before pat [] repl := by
  cases pat with
  | nil => exact absurd rfl hne
  | cons p ps =>
    have hpre : (p :: ps).isPrefixOf (p :: ps) = true := by
      have h := isPrefixOf_self_append (p :: ps) []
      rwa [List.append_nil] at h
    show replaceAllF (ps.length + 1) (p :: ps) repl before (p :: ps) = _
    simp only [replaceAllF, if_pos (And.intro hne hpre)]
    rw [show (p :: ps).drop (p :: ps).length = ([] : List Char) from List.drop_length _,
      replaceAllF_nil, List.append_nil]

theorem replaceAllRest_ph_other_nil (repl : List Char) {k k' : List Char}
    (hk : noBraces k) (hk' : noBraces k') (hne : k ≠ k') :
    ∀ before, replaceAllRest (phpat k) repl before (phpat k') = phpat k' := by
  intro before
  obtain ⟨hd, tl, heq, hhd⟩ :
      ∃ hd tl, k' ++ [rbrace, rbrace] = hd :: tl ∧ hd ≠ lbrace := by
    cases k' with
    | nil => exact ⟨rbrace, [rbrace], rfl, by decide⟩
    | cons c ks => exact ⟨c, ks ++ [rbrace, rbrace], by simp, (hk' c (by simp)).1⟩
  have hshape : phpat k' = lbrace :: lbrace :: (k' ++ [rbrace, rbrace]) := by simp [phpat]
  have hcond0 : ¬((phpat k) ≠ [] ∧
      (phpat k).isPrefixOf (lbrace :: lbrace :: (k' ++ [rbrace, rbrace])) = true) := by
    rintro ⟨-, hp⟩
    rw [show lbrace :: lbrace :: (k' ++ [rbrace, rbrace]) = phpat k' ++ [] from by
      rw [List.append_nil]; exact hshape.symm] at hp
    rw [phpat_not_pfx_other hk hk' hne []] at hp
    cases hp
  have hcond1 : ¬((phpat k) ≠ [] ∧
      (phpat k).isPrefixOf (lbrace :: (k' ++ [rbrace, rbrace])) = true) := by
    rintro ⟨-, hp⟩
    rw [heq] at hp
    rw [show phpat k = lbrace :: lbrace :: (k ++ [rbrace, rbrace]) from by simp [phpat]] at hp
    simp only [List.isPrefixOf, Bool.and_eq_true, beq_iff_eq, true_and] at hp
    exact hhd hp.1.symm
  rw [hshape, replaceAllRest_cons_neg repl before hcond0,
    replaceAllRest_cons_neg repl (before ++ [lbrace]) hcond1,
    replaceAllRest_pfree ⟨lbrace :: (k ++ [rbrace, rbrace]), by simp [phpat]⟩
      (k' ++ [rbrace, rbrace]) ((before ++ [lbrace]) ++ [lbrace])
      (by
        intro c hc
        rcases List.mem_append.mp hc with hc | hc
        · exact (hk' c hc).1
        · have hcr : c = rbrace := by simpa using hc
          subst hcr
          decide)]

theorem phKey_data (k : String) : (phKey k).data = phpat k.data := by
  unfold phKey phpat
  rw [String.data_append, String.data_append,
    show ("\x7b\x7b" : String).data = [lbrace, lbrace] from by decide,
    show ("\x7d\x7d" : String).data = [rbrace, rbrace] from by decide]
  simp

theorem fold_fillStepData_pfree :
    ∀ (ks : List (String × String)) (content : List Char),
      (∀ c ∈ content, c ≠ lbrace) → ks.foldl fillStepData content = content := by
  intro ks
  induction ks with
  | nil => intro content _; rfl
  | cons kv ks ih =>
    intro content hfree
    rw [List.foldl_cons]
    have hstep : fillStepData content kv = content := by
      unfold fillStepData
      rw [phKey_data]
      show replaceAllRest (phpat kv.1.data) _ [] content = content
      exact replaceAllRest_pfree ⟨lbrace :: (kv.1.data ++ [rbrace, rbrace]),
        by simp [phpat]⟩ content [] hfree
    rw [hstep]
    exact ih content hfree

theorem fold_single_ph :
    ∀ (ks : List (String × String)) (k : List Char),
      noBraces k →
      (∀ kv ∈ ks, noBraces kv.1.data) →
      (∀ kv ∈ ks, kv.1.data = k → kv.2 = "") →
      (∃ kv ∈ ks, kv.1.data = k) →
      ks.foldl fillStepData (phpat k) = "Not specified".data := by
  intro ks
  induction ks with
  | nil =>
    intro k _ _ _ hex
    rcases hex with ⟨kv, hkv, -⟩
    cases hkv
  | cons kv ks ih =>
    intro k hknb hkeys hempty hex
    rw [List.foldl_cons]
    by_cases hkk : kv.1.data = k
    · have hv : kv.2 = "" := hempty kv (by simp) hkk
      have hstep : fillStepData (phpat k) kv = "Not specified".data := by
        unfold fillStepData
        rw [hv, if_pos rfl, phKey_data, hkk]
        show replaceAllRest (phpat k) "Not specified".data [] (phpat k) = _
        rw [replaceAllRest_self "Not specified".data [] (by simp [phpat])]
        exact expandDollar_eq_self [] (phpat k) [] "Not specified".data (by decide)
      rw [hstep]
      exact fold_fillStepData_pfree ks "Not specified".data (by decide)
    · have hstep : fillStepData (phpat k) kv = phpat k := by
        unfold fillStepData
        rw [phKey_data]
        show replaceAllRest (phpat kv.1.data) _ [] (phpat k) = _
        exact replaceAllRest_ph_other_nil _ (hkeys kv (by simp)) hknb hkk []
      rw [hstep]
      apply ih k hknb (fun u hu => hkeys u (by simp [hu])) (fun u hu => hempty u (by simp [hu]))
      rcases hex with ⟨kv2, hkv2, hkeq⟩
      rcases List.mem_cons.mp hkv2 with rfl | hmem
      · exact absurd hkeq hkk
      · exact ⟨kv2, hmem, hkeq⟩

theorem fold_fillStep_noBraces :
    ∀ (ks : List (String × String)) (segs : List Seg),
      (∀ kv ∈ ks, kv.1.data ≠ [] ∧ noBraces kv.1.data) →
      (∀ kv ∈ ks, noBraces (if kv.2 = "" then "Not specified" else kv.2).data ∧
        dollar ∉ (if kv.2 = "" then "Not specified" else kv.2).data) →
      (∀ sg ∈ segs, SegGood (ks.map (fun kv => kv.1.data)) sg) →
      noBraces (ks.foldl fillStepData (assemble segs)) := by
  intro ks
  induction ks with
  | nil =>
    intro segs _ _ hsegs
    exact assemble_noBraces segs (by simpa using hsegs)
  | cons kv ks ih =>
    intro segs hkeys hvals hsegs
    obtain ⟨hne, hkbr⟩ := hkeys kv (by simp)
    obtain ⟨hvbr, hvnd⟩ := hvals kv (by simp)
    have hstep : fillStepData (assemble segs) kv =
        assemble (segs.map (substSeg kv.1.data
          (if kv.2 = "" then "Not specified" else kv.2).data)) := by
      unfold fillStepData
      rw [phKey_data, replaceAll_eq_ND hvnd]
      exact replaceAllND_assemble hkbr (by simpa using hne) segs hsegs
    rw [List.foldl_cons, hstep]
    apply ih
    · exact fun u hu => hkeys u (by simp [hu])
    · exact fun u hu => hvals u (by simp [hu])
    · intro sg hsg
      rcases List.mem_map.mp hsg with ⟨sg0, hsg0, rfl⟩
      have hg := hsegs sg0 (by simp [hsg0])
      cases sg0 with
      | lit s => exact hg
      | ph k' =>
        obtain ⟨hmem, hbr, hkne'⟩ := hg
        by_cases hkk : k' = kv.1.data
        · rw [show substSeg kv.1.data
            (if kv.2 = "" then "Not specified" else kv.2).data (.ph k') =
            .lit (if kv.2 = "" then "Not specified" else kv.2).data from by
              simp [substSeg, hkk]]
          exact hvbr
        · rw [show substSeg kv.1.data
            (if kv.2 = "" then "Not specified" else kv.2).data (.ph k') = .ph k' from by
              simp [substSeg, hkk]]
          refine ⟨?_, hbr, hkne'⟩
          simp only [List.map_cons, List.mem_cons] at hmem
          rcases hmem with hmem | hmem
          · exact absurd hmem hkk
          · exact hmem

theorem foldl_fillStep_data : ∀ (ks : List (String × String)) (c : String),
    (ks.foldl fillStep c).data = ks.foldl fillStepData c.data := by
  intro ks
  induction ks with
  | nil => intro c; rfl
  | cons kv ks ih =>
    intro c
    rw [List.foldl_cons, List.foldl_cons, ih]
    rfl

theorem hasSub_false_of_pfree {t : List Char} :
    ∀ s : List Char, (∀ c ∈ s, c ≠ lbrace) → hasSub (lbrace :: t) s = false := by
  intro s
  induction s with
  | nil => intro _; rfl
  | cons c rest ih =>
    intro hfree
    have hc : c ≠ lbrace := hfree c (by simp)
    show ((lbrace :: t).isPrefixOf (c :: rest) || hasSub (lbrace :: t) rest) = false
    rw [ih (fun x hx => hfree x (by simp [hx]))]
    simp only [List.isPrefixOf, Bool.or_false, Bool.and_eq_false_iff]
    left
    simp only [beq_eq_false_iff_ne, ne_eq]
    exact fun e => hc e.symm

/-! ## Claim theorems: placeholder totality (C1) -/

/-- C1 counterexample: a stored template whose body is the single
placeholder `(\x7b\x7bFOO\x7d\x7d)` with a name outside the fixed
replacement key set. `fillTemplate` leaves it verbatim in the emitted text —
it is neither replaced nor substituted with the 'Not specified' sentinel, so
the output still contains a `(\x7b\x7b...\x7d\x7d)` token. -/
theorem c1_placeholder_totality_cex :
    fillTemplate unknownKeyTemplate fillDataFix = "\x7b\x7bFOO\x7d\x7d" ∧
    hasSub [lbrace, lbrace] (fillTemplate unknownKeyTemplate fillDataFix).data = true := by
  constructor
  · decide
  · decide

/-- Faithfulness check of the `$`-substitution model: a brace-free
replacement value alone does not guarantee totality — a ticket whose title
is the JavaScript replacement escape `$&` makes `fillTemplate` reinsert the
matched `(\x7b\x7bFEATURE_NAME\x7d\x7d)` placeholder verbatim. -/
theorem fillTemplate_dollar_amp_reinserts :
    fillTemplate knownKeyTemplate dollarTitleData =
      "Feature: \x7b\x7bFEATURE_NAME\x7d\x7d!" ∧
    hasSub [lbrace, lbrace] (fillTemplate knownKeyTemplate dollarTitleData).data = true := by
  constructor
  · decide
  · decide

/-- C1 (amended): (1) for every template whose body decomposes into
brace-free literal text and placeholders that all name one of the 21 fixed
replacement keys, and for every `fillTemplate` data whose replacement values
contain neither brace characters nor the `$` character (a `$`-escape such as
`$&` can reinsert the matched placeholder, see
`fillTemplate_dollar_amp_reinserts`), the emitted prompt contains no
remaining `(\x7b\x7b...\x7d\x7d)` token; and (2) a fixed key whose computed
value is empty is replaced by the fixed 'Not specified' sentinel: a template
whose body is that key's placeholder compiles to exactly "Not specified".
(Placeholders with names outside the fixed key set are left raw, as the
counterexample forces.) -/
theorem c1_placeholder_totality_amended :
    (∀ (template : PromptTemplate) (data : FillData) (segs : List Seg),
      template.template.data = assemble segs →
      (∀ sg ∈ segs, SegGood (replacementKeys.map String.data) sg) →
      (∀ kv ∈ replacements data, noBraces kv.2.data ∧ dollar ∉ kv.2.data) →
      hasSub [lbrace, lbrace] (fillTemplate template data).data = false) ∧
    (∀ (template : PromptTemplate) (data : FillData) (key : String),
      key ∈ replacementKeys →
      template.template = phKey key →
      (∀ kv ∈ replacements data, kv.1 = key → kv.2 = "") →
      fillTemplate template data = "Not specified") := by
  constructor
  · intro template data segs hasm hsegs hvals
    unfold fillTemplate
    rw [foldl_fillStep_data, hasm]
    have hkeysAll : ∀ k ∈ replacementKeys, k.data ≠ [] ∧ noBraces k.data := by decide
    have hmapfst : (replacements data).map (fun kv => kv.1) = replacementKeys := rfl
    have hkeys : ∀ kv ∈ replacements data, kv.1.data ≠ [] ∧ noBraces kv.1.data := by
      intro kv hkv
      apply hkeysAll
      rw [← hmapfst]
      exact List.mem_map.mpr ⟨kv, hkv, rfl⟩
    have hvals' : ∀ kv ∈ replacements data,
        noBraces (if kv.2 = "" then "Not specified" else kv.2).data ∧
          dollar ∉ (if kv.2 = "" then "Not specified" else kv.2).data := by
      intro kv hkv
      by_cases hkv2 : kv.2 = ""
      · rw [if_pos hkv2]
        exact ⟨by decide, by decide⟩
      · rw [if_neg hkv2]
        exact hvals kv hkv
    have hK : (replacements data).map (fun kv => kv.1.data) =
        replacementKeys.map String.data := rfl
    have hsegs' : ∀ sg ∈ segs,
        SegGood ((replacements data).map (fun kv => kv.1.data)) sg := by
      rw [hK]
      exact hsegs
    have hnb := fold_fillStep_noBraces (replacements data) segs hkeys hvals' hsegs'
    exact hasSub_false_of_pfree _ (fun c hc => (hnb c hc).1)
  · intro template data key hkey ht hempty
    have hkeysAll : ∀ k ∈ replacementKeys, k.data ≠ [] ∧ noBraces k.data := by decide
    have hmapfst : (replacements data).map (fun kv => kv.1) = replacementKeys := rfl
    apply String.ext
    rw [show (fillTemplate template data).data =
      (replacements data).foldl fillStepData template.template.data from
      foldl_fillStep_data (replacements data) template.template]
    rw [ht, phKey_data]
    apply fold_single_ph
    · exact (hkeysAll key hkey).2
    · intro kv hkv
      refine (hkeysAll kv.1 ?_).2
      rw [← hmapfst]
      exact List.mem_map.mpr ⟨kv, hkv, rfl⟩
    · intro kv hkv hkd
      exact hempty kv hkv (String.ext hkd)
    · have hmem : key ∈ (replacements data).map (fun kv => kv.1) := by
        rw [hmapfst]
        exact hkey
      rcases List.mem_map.mp hmem with ⟨kv, hkv, hfst⟩
      exact ⟨kv, hkv, by rw [hfst]⟩

/-- C1 witness: the amended totality applied to a concrete template
`"Feature: \x7b\x7bFEATURE_NAME\x7d\x7d!"` and concrete fill data, and the
sentinel rule applied to a template holding only the `CONTEXT_SUMMARY`
placeholder over a snapshot with an empty summary. -/
theorem c1_placeholder_totality_amended_witness :
    knownKeyTemplate.template.data = assemble knownKeySegs ∧
    (∀ sg ∈ knownKeySegs, SegGood (replacementKeys.map String.data) sg) ∧
    (∀ kv ∈ replacements fillDataFix, noBraces kv.2.data ∧ dollar ∉ kv.2.data) ∧
    hasSub [lbrace, lbrace] (fillTemplate knownKeyTemplate fillDataFix).data = false ∧
    "CONTEXT_SUMMARY" ∈ replacementKeys ∧
    summaryOnlyTemplate.template = phKey "CONTEXT_SUMMARY" ∧
    (∀ kv ∈ replacements emptySummaryData, kv.1 = "CONTEXT_SUMMARY" → kv.2 = "") ∧
    fillTemplate summaryOnlyTemplate emptySummaryData = "Not specified" :=
  ⟨by decide, by decide, by decide,
   c1_placeholder_totality_amended.1 knownKeyTemplate fillDataFix knownKeySegs
     (by decide) (by decide) (by decide),
   by decide, rfl, by decide,
   c1_placeholder_totality_amended.2 summaryOnlyTemplate emptySummaryData "CONTEXT_SUMMARY"
     (by decide) rfl (by decide)⟩

end Sherpa